import Mathlib

set_option maxHeartbeats 1000000

/-!
Shallow embedding of the maybenot-defenses machine generators
(`src/bin/maybenot_front.rs` and `src/bin/maybenot_regulator.rs`).

Modelling conventions:
* `f64` / `f32` values are modelled as real numbers.  Distribution
  parameters are modelled in the extended reals `EReal` so that the
  `f64::INFINITY` literals of the source (used for unbounded blocking
  durations) are representable as `⊤`.
* The unbounded `while` loops of the two interval-width searches are
  modelled with an explicit fuel parameter returning `Option ℝ`: `none`
  means the search did not converge within the fuel.  In the floating
  point source a diverging search eventually produces an infinite or
  NaN width; the regulator's `width == INFINITY` test corresponds to
  the `none` case of the model, so only the `rate < 1.0` test remains
  in the embedded termination condition.
* `usize` casts of nonnegative floats are `Int.toNat ∘ Int.floor`,
  `f64::fract` on nonnegative input is `Int.fract`, and `STATE_END`
  (`usize::MAX`) is `2 ^ 64 - 1`.
-/

namespace MB

/-- Events of the maybenot framework referenced by the generators. -/
inductive Event
  | NormalRecv
  | PaddingRecv
  | TunnelRecv
  | NormalSent
  | PaddingSent
  | TunnelSent
  | BlockingBegin
  | BlockingEnd
  | LimitReached
  deriving DecidableEq, Repr

/-- Distribution shape; parameters live in `EReal` so that the source's
`f64::INFINITY` literals can be represented faithfully. -/
inductive DistType
  | Uniform (low high : EReal)
  | Normal (mean stdev : EReal)

/-- A distribution together with its start offset and max clamp,
mirroring `maybenot::dist::Dist`. -/
structure Dist where
  dist : DistType
  start : EReal
  max : EReal

/-- An action attached to a state, mirroring `maybenot::action::Action`
(only the variants used by the generators). -/
inductive Action
  | SendPadding (bypass replace : Bool) (timeout : Dist) (limit : Option Dist)
  | BlockOutgoing (bypass replace : Bool) (timeout : Dist) (duration : Dist) (limit : Option Dist)

/-- A machine state: a total map from events to transition lists
(the `enum_map!` with `_ => vec![]` default) plus an optional action. -/
structure State where
  transitions : Event → List (ℕ × ℝ)
  action : Option Action

instance : Inhabited State := ⟨⟨fun _ => [], none⟩⟩

/-- The assembled machine descriptor, mirroring `maybenot::Machine`. -/
structure Machine where
  allowed_padding_packets : ℕ
  max_padding_frac : ℝ
  allowed_blocked_microsec : ℕ
  max_blocking_frac : ℝ
  states : List State

/-- Terminal sentinel state index, `maybenot::constants::STATE_END = usize::MAX`. -/
def STATE_END : ℕ := 2 ^ 64 - 1

/-- `u64::MAX`, used for the unbounded machine budgets. -/
def U64_MAX : ℕ := 2 ^ 64 - 1

/-- `f64::EPSILON = 2⁻⁵²`, the convergence tolerance of the windowed search. -/
noncomputable def EPSILON : ℝ := 1 / 2 ^ 52

/-- The fixed convergence tolerance of the surge-scheme search. -/
def SURGE_TOL : ℝ := 0.00001

namespace Front

/-- Cumulative distribution function of the Rayleigh distribution,
`rayleigh_cdf` of `maybenot_front.rs`. -/
noncomputable def rayleigh_cdf (t scale : ℝ) : ℝ :=
  1 - Real.exp (-t ^ 2 / (2 * scale ^ 2))

/-- Value of `t` at which the Rayleigh CDF reaches `0.9996645373720975`,
`rayleigh_max_t` of `maybenot_front.rs`. -/
noncomputable def rayleigh_max_t (scale : ℝ) : ℝ :=
  Real.sqrt (-2 * scale ^ 2 * Real.log (1 - 0.9996645373720975))

/-- Body of the `while` loop of the windowed `calc_interval_width`,
with an explicit fuel bound on the number of iterations. -/
noncomputable def calcAux (a area scale : ℝ) : ℕ → ℝ → ℝ → Option ℝ
  | 0, b, _ =>
    if |area - (rayleigh_cdf b scale - rayleigh_cdf a scale)| ≤ EPSILON then some (b - a)
    else none
  | f + 1, b, increment =>
    if |area - (rayleigh_cdf b scale - rayleigh_cdf a scale)| ≤ EPSILON then some (b - a)
    else
      calcAux a area scale f
        (if area - (rayleigh_cdf b scale - rayleigh_cdf a scale) < 0 then b - increment
         else b + increment)
        (increment / 2)

/-- `calc_interval_width` of `maybenot_front.rs` (fuel-bounded bisection). -/
noncomputable def calc_interval_width (fuel : ℕ) (a max_t area scale : ℝ) : Option ℝ :=
  calcAux a area scale fuel max_t ((max_t - a) / 2)

/-- `generate_padding_state` of `maybenot_front.rs`. -/
noncomputable def generate_padding_state (curr_index next_index : ℕ)
    (padding_count timeout stdev : ℝ) : State where
  transitions := fun e =>
    match e with
    | .PaddingSent => [(curr_index, 1)]
    | .LimitReached => [(next_index, 1)]
    | _ => []
  action := some (.SendPadding false false
    ⟨.Normal ↑timeout ↑stdev, 0, ↑(timeout * 2)⟩
    (some ⟨.Uniform 1 ↑padding_count, 0, 0⟩))

/-- `generate_last_padding_state` of `maybenot_front.rs`. -/
noncomputable def generate_last_padding_state (curr_index : ℕ)
    (padding_count timeout stdev : ℝ) : State where
  transitions := fun e =>
    match e with
    | .PaddingSent => [(curr_index, 1)]
    | .LimitReached => [(STATE_END, 1)]
    | _ => []
  action := some (.SendPadding false false
    ⟨.Normal ↑timeout ↑stdev, 0, ↑(timeout * 2)⟩
    (some ⟨.Uniform 1 ↑padding_count, 0, 0⟩))

/-- `generate_start_state` of `maybenot_front.rs`. -/
def generate_start_state : State where
  transitions := fun e =>
    match e with
    | .NormalSent => [(1, 1)]
    | .NormalRecv => [(1, 1)]
    | _ => []
  action := none

/-- The `for i in 1..num_states` loop of `generate_machine`: builds the
non-final padding states while threading the interval start `t1` and the
accumulated `total_padding_frac`. -/
noncomputable def padLoop (cf : ℕ) (pw area max_t pb : ℝ) :
    ℕ → ℕ → ℝ → ℝ → Option (List State × ℝ × ℝ)
  | 0, _, t1, total => some ([], t1, total)
  | r + 1, i, t1, total =>
    match calc_interval_width cf t1 max_t area pw with
    | none => none
    | some width =>
      match padLoop cf pw area max_t pb r (i + 1) (t1 + width) (total + area) with
      | none => none
      | some (rest, tEnd, totalEnd) =>
        some (generate_padding_state i (i + 1) (area * pb) (width / (area * pb))
            (pw ^ 2 / ((area * pb) * (t1 + width / 2) * Real.sqrt Real.pi)) :: rest,
          tEnd, totalEnd)

/-- `generate_machine` of `maybenot_front.rs` (fuel-bounded). -/
noncomputable def generate_machine (cf : ℕ) (padding_window : ℝ) (padding_budget : ℕ)
    (num_states : ℕ) : Option Machine :=
  let area := 1 / (num_states : ℝ)
  let max_t := rayleigh_max_t padding_window
  match padLoop cf padding_window area max_t (padding_budget : ℝ) (num_states - 1) 1 0 0 with
  | none => none
  | some (pads, t1, total) =>
    some { allowed_padding_packets := U64_MAX
           max_padding_frac := 0
           allowed_blocked_microsec := 0
           max_blocking_frac := 0
           states := generate_start_state :: pads ++
             [generate_last_padding_state num_states
                ((1 - total) * (padding_budget : ℝ))
                ((max_t - t1) / ((1 - total) * (padding_budget : ℝ)))
                (padding_window ^ 2 / (((1 - total) * (padding_budget : ℝ)) *
                  (t1 + (max_t - t1) / 2) * Real.sqrt Real.pi))] }

end Front

namespace Reg

/-- `calculate_rate` of `maybenot_regulator.rs`: the decay curve `R·D^t`. -/
noncomputable def calculate_rate (t initial_rate decay : ℝ) : ℝ :=
  initial_rate * decay ^ t

/-- Body of the `while` loop of the surge `calc_interval_width`, with an
explicit fuel bound.  The state is the running midpoint, the current step
and the `decreasing` flag. -/
noncomputable def calcAux (a count rate decay : ℝ) : ℕ → ℝ → ℝ → Bool → Option ℝ
  | 0, mid, _, _ =>
    if |count - calculate_rate mid rate decay * (mid - a) * 2| ≤ SURGE_TOL then
      some ((mid - a) * 2)
    else none
  | f + 1, mid, step, decreasing =>
    if |count - calculate_rate mid rate decay * (mid - a) * 2| ≤ SURGE_TOL then
      some ((mid - a) * 2)
    else
      if count - calculate_rate mid rate decay * (mid - a) * 2 < 0 then
        calcAux a count rate decay f (mid - step) (step / 2) true
      else
        calcAux a count rate decay f (mid + step)
          (if decreasing then step / 2 else step * 2) decreasing

/-- `calc_interval_width` of `maybenot_regulator.rs` (fuel-bounded). -/
noncomputable def calc_interval_width (fuel : ℕ) (a count rate decay : ℝ) : Option ℝ :=
  calcAux a count rate decay fuel a 0.5 false

/-- `generate_relay_send_state` of `maybenot_regulator.rs`. -/
noncomputable def generate_relay_send_state (curr_index next_index : ℕ)
    (padding_count timeout threshold rate : ℝ) : State where
  transitions := fun e =>
    if 11 < curr_index then
      match e with
      | .PaddingSent => [(curr_index, 1)]
      | .LimitReached => [(next_index, 1)]
      | .NormalSent => [(11, 2 / (threshold * rate))]
      | _ => []
    else
      match e with
      | .PaddingSent => [(curr_index, 1)]
      | .LimitReached => [(next_index, 1)]
      | _ => []
  action := some (.SendPadding true true
    ⟨.Uniform ↑timeout ↑timeout, 0, 0⟩
    (some ⟨.Uniform ↑padding_count ↑padding_count, 0, 0⟩))

/-- `generate_relay_boot_state` of `maybenot_regulator.rs`. -/
noncomputable def generate_relay_boot_state (curr_index next_index : ℕ)
    (timeout : ℝ) : State where
  transitions := fun e =>
    match e with
    | .PaddingSent => [(curr_index, 1)]
    | .NormalSent => [(next_index, 1)]
    | _ => []
  action := some (.SendPadding true true ⟨.Uniform ↑timeout ↑timeout, 0, 0⟩ none)

/-- `generate_relay_block_state` of `maybenot_regulator.rs`. -/
def generate_relay_block_state : State where
  transitions := fun e =>
    match e with
    | .BlockingBegin => [(2, 1)]
    | _ => []
  action := some (.BlockOutgoing true true
    ⟨.Uniform 0 0, 0, 0⟩ ⟨.Uniform ⊤ ⊤, 0, 0⟩ none)

/-- `generate_relay_start_state` of `maybenot_regulator.rs`. -/
def generate_relay_start_state : State where
  transitions := fun e =>
    match e with
    | .NormalSent => [(1, 1)]
    | _ => []
  action := none

/-- The first `while keep_going` loop of `generate_relay_machine`, which
counts the SEND states (fuel-bounded since the source loop is unbounded). -/
noncomputable def countSendStates (cf : ℕ) (pps rate decay : ℝ) : ℕ → ℝ → Option ℕ
  | 0, _ => none
  | f + 1, t1 =>
    match calc_interval_width cf t1 pps rate decay with
    | none => none
    | some width =>
      if calculate_rate (t1 + width / 2) rate decay < 1 then some 1
      else
        match countSendStates cf pps rate decay f (t1 + width) with
        | none => none
        | some n => some (n + 1)

/-- The `for i in 0..num_send_states` loop of `generate_relay_machine`,
building the SEND states. -/
noncomputable def sendLoop (cf : ℕ) (pps rate decay threshold : ℝ) :
    ℕ → ℕ → ℝ → Option (List State)
  | 0, _, _ => some []
  | r + 1, i, t1 =>
    match calc_interval_width cf t1 pps rate decay with
    | none => none
    | some width =>
      match sendLoop cf pps rate decay threshold r (i + 1) (t1 + width) with
      | none => none
      | some rest =>
        if calculate_rate (t1 + width / 2) rate decay < 1 then
          some (generate_relay_send_state (i + 11) STATE_END pps (1000000 / 1)
            threshold 1 :: rest)
        else
          some (generate_relay_send_state (i + 11) (i + 12) pps
            (1000000 / calculate_rate (t1 + width / 2) rate decay) threshold
            (calculate_rate (t1 + width / 2) rate decay) :: rest)

/-- `generate_relay_machine` of `maybenot_regulator.rs` (fuel-bounded). -/
noncomputable def generate_relay_machine (cf nf : ℕ)
    (packets_per_state initial_rate decay threshold : ℝ) : Option Machine :=
  match countSendStates cf packets_per_state initial_rate decay nf 0 with
  | none => none
  | some n =>
    match sendLoop cf packets_per_state initial_rate decay threshold n 0 0 with
    | none => none
    | some sends =>
      some { allowed_padding_packets := U64_MAX
             max_padding_frac := 0
             allowed_blocked_microsec := U64_MAX
             max_blocking_frac := 0
             states := generate_relay_start_state :: generate_relay_block_state ::
               generate_relay_boot_state 2 3 100000 ::
               generate_relay_boot_state 3 4 100000 ::
               generate_relay_boot_state 4 5 100000 ::
               generate_relay_boot_state 5 6 100000 ::
               generate_relay_boot_state 6 7 100000 ::
               generate_relay_boot_state 7 8 100000 ::
               generate_relay_boot_state 8 9 100000 ::
               generate_relay_boot_state 9 10 100000 ::
               generate_relay_boot_state 10 11 100000 :: sends }

/-- `generate_client_send_state` of `maybenot_regulator.rs`. -/
def generate_client_send_state : State where
  transitions := fun e =>
    match e with
    | .PaddingSent => [(0, 1)]
    | _ => []
  action := some (.SendPadding true true ⟨.Uniform 0 0, 0, 0⟩ none)

/-- The action shared by every client COUNTER state: block outgoing
traffic for an unbounded duration with a fixed limit of 2. -/
def clientCountAction : Action :=
  .BlockOutgoing true true ⟨.Uniform 0 0, 0, 0⟩ ⟨.Uniform ⊤ ⊤, 0, 0⟩
    (some ⟨.Uniform 2 2, 0, 0⟩)

/-- `generate_client_count_state` of `maybenot_regulator.rs`. -/
noncomputable def generate_client_count_state (curr_index next_index : ℕ) (prob_trans : ℝ) : State where
  transitions := fun e =>
    if prob_trans < 1 then
      match e with
      | .PaddingRecv => [(next_index, prob_trans), (curr_index, 1 - prob_trans)]
      | .NormalRecv => [(next_index, prob_trans), (curr_index, 1 - prob_trans)]
      | .LimitReached => [(next_index, 1)]
      | _ => []
    else
      match e with
      | .PaddingRecv => [(next_index, prob_trans)]
      | .NormalRecv => [(next_index, prob_trans)]
      | _ => []
  action := some clientCountAction

/-- `generate_client_machine` of `maybenot_regulator.rs`.  The `usize`
cast of the nonnegative ratio is `Int.toNat ∘ Int.floor` and `fract` is
`Int.fract`. -/
noncomputable def generate_client_machine (upload_ratio : ℝ) : Machine :=
  let num_states := Int.toNat ⌊upload_ratio⌋ + 1
  let prob_last_trans := 1 - Int.fract upload_ratio
  { allowed_padding_packets := U64_MAX
    max_padding_frac := 0
    allowed_blocked_microsec := U64_MAX
    max_blocking_frac := 0
    states :=
      (List.range (num_states - 1)).map
        (fun j => generate_client_count_state j (j + 1)
          (if j = num_states - 2 then prob_last_trans else 1)) ++
      [generate_client_send_state] }

end Reg

/-- Concrete initial rate `R = 3^(1/4)` used for a fully evaluated relay
machine instance. -/
noncomputable def RC : ℝ := (3 : ℝ) ^ ((1 : ℝ) / 4)

/-- Concrete decay `D = 3^(-1/2)` used for a fully evaluated relay
machine instance. -/
noncomputable def DC : ℝ := (3 : ℝ) ^ (-((1 : ℝ) / 2))

/-- The machine produced by `generate_relay_machine` on inputs
`packets_per_state = 1`, `initial_rate = RC`, `decay = DC`,
`threshold = 2`: two SEND states beyond the eleven fixed states. -/
noncomputable def relayM2 : Machine where
  allowed_padding_packets := U64_MAX
  max_padding_frac := 0
  allowed_blocked_microsec := U64_MAX
  max_blocking_frac := 0
  states := [Reg.generate_relay_start_state, Reg.generate_relay_block_state,
    Reg.generate_relay_boot_state 2 3 100000,
    Reg.generate_relay_boot_state 3 4 100000,
    Reg.generate_relay_boot_state 4 5 100000,
    Reg.generate_relay_boot_state 5 6 100000,
    Reg.generate_relay_boot_state 6 7 100000,
    Reg.generate_relay_boot_state 7 8 100000,
    Reg.generate_relay_boot_state 8 9 100000,
    Reg.generate_relay_boot_state 9 10 100000,
    Reg.generate_relay_boot_state 10 11 100000,
    Reg.generate_relay_send_state 11 12 1 (1000000 / 1) 2 1,
    Reg.generate_relay_send_state 12 STATE_END 1 (1000000 / 1) 2 1]

/-- The machine produced by the windowed generator for
`padding_window = 1`, `padding_budget = 1`, `num_states = 1`
(no interval search is needed on this path). -/
noncomputable def frontM1 : Machine :=
  (Front.generate_machine 0 1 1 1).getD ⟨0, 0, 0, 0, []⟩

/-- Every transition target of every state is a valid index or the
terminal sentinel. -/
def targetsWellFormed (m : Machine) : Prop :=
  ∀ s ∈ m.states, ∀ e : Event, ∀ p ∈ s.transitions e,
    p.1 = STATE_END ∨ p.1 < m.states.length

/-- State index 0 is never the target of a transition. -/
def neverTargetsStart (m : Machine) : Prop :=
  ∀ s ∈ m.states, ∀ e : Event, ∀ p ∈ s.transitions e, p.1 ≠ 0

end MB

namespace MB

/-! ### Structure of the client-side machine -/

theorem client_states_length (ur : ℝ) :
    (Reg.generate_client_machine ur).states.length = Int.toNat ⌊ur⌋ + 1 := by
  simp [Reg.generate_client_machine]

theorem client_getD_counter (ur : ℝ) (j : ℕ) (hj : j < Int.toNat ⌊ur⌋) :
    (Reg.generate_client_machine ur).states.getD j default =
      Reg.generate_client_count_state j (j + 1)
        (if j = Int.toNat ⌊ur⌋ - 1 then 1 - Int.fract ur else 1) := by
  rw [List.getD_eq_getElem?_getD]
  simp [Reg.generate_client_machine, List.getElem?_append, hj]

theorem client_getD_send (ur : ℝ) :
    (Reg.generate_client_machine ur).states.getD (Int.toNat ⌊ur⌋) default =
      Reg.generate_client_send_state := by
  rw [List.getD_eq_getElem?_getD]
  simp [Reg.generate_client_machine]

end MB

namespace MB

/-- C1 (amended): for every positive upload ratio the client generator
builds `⌊upload_ratio⌋` COUNTER states (each blocking outgoing traffic)
followed by exactly one SEND state; in particular `upload_ratio = 2.5`
yields 2 COUNTER states chained to 1 SEND state, 3 states in total. -/
theorem C1_client_machine_shape (ur : ℝ) (h : 0 < ur) :
    (Reg.generate_client_machine ur).states.length = Int.toNat ⌊ur⌋ + 1 ∧
    (∀ j, j < Int.toNat ⌊ur⌋ →
      ((Reg.generate_client_machine ur).states.getD j default).action =
        some Reg.clientCountAction) ∧
    ((Reg.generate_client_machine ur).states.getD (Int.toNat ⌊ur⌋) default).action =
      some (Action.SendPadding true true ⟨DistType.Uniform 0 0, 0, 0⟩ none) ∧
    ((Reg.generate_client_machine ur).states.getD (Int.toNat ⌊ur⌋) default).transitions
      Event.PaddingSent = [(0, 1)] := by
  refine ⟨client_states_length ur, fun j hj => ?_, ?_, ?_⟩
  · rw [client_getD_counter ur j hj]
    rfl
  · rw [client_getD_send ur]
    rfl
  · rw [client_getD_send ur]
    rfl

/-- C1 counterexample: at `upload_ratio = 2.5` the client machine has 3
states, not the 4 (three COUNTER states plus one SEND state) the claim
demands. -/
theorem C1_counterexample :
    (Reg.generate_client_machine (2.5 : ℝ)).states.length = 3 ∧
    (Reg.generate_client_machine (2.5 : ℝ)).states.length ≠ 4 := by
  have h : (Reg.generate_client_machine (2.5 : ℝ)).states.length = 3 := by
    rw [client_states_length, show ⌊(2.5 : ℝ)⌋ = 2 by norm_num]
    rfl
  exact ⟨h, by rw [h]; decide⟩

/-- C1 witness at `upload_ratio = 2.5`. -/
theorem C1_witness :
    (0 : ℝ) < 2.5 ∧
    ((Reg.generate_client_machine (2.5 : ℝ)).states.length = Int.toNat ⌊(2.5 : ℝ)⌋ + 1 ∧
    (∀ j, j < Int.toNat ⌊(2.5 : ℝ)⌋ →
      ((Reg.generate_client_machine (2.5 : ℝ)).states.getD j default).action =
        some Reg.clientCountAction) ∧
    ((Reg.generate_client_machine (2.5 : ℝ)).states.getD (Int.toNat ⌊(2.5 : ℝ)⌋)
      default).action =
      some (Action.SendPadding true true ⟨DistType.Uniform 0 0, 0, 0⟩ none) ∧
    ((Reg.generate_client_machine (2.5 : ℝ)).states.getD (Int.toNat ⌊(2.5 : ℝ)⌋)
      default).transitions Event.PaddingSent = [(0, 1)]) :=
  ⟨by norm_num, C1_client_machine_shape 2.5 (by norm_num)⟩

end MB

namespace MB

/-- C5 (amended): each COUNTER state advances to the next state on a
received packet (padding or normal) with probability `p` and stays with
probability `1 - p`, where `p = 1` for every link except the last, whose
`p` equals `1 - fract(upload_ratio)` (the stay probability is the
fractional part); in particular for `upload_ratio = 2.5` the link from
the second COUNTER state to the SEND state carries probability `0.5` on
both receive events. -/
theorem C5_counter_probabilities (ur : ℝ) (hf : Int.fract ur ≠ 0) :
    (∀ j, j + 1 < Int.toNat ⌊ur⌋ →
      ((Reg.generate_client_machine ur).states.getD j default).transitions Event.PaddingRecv
          = [(j + 1, 1)] ∧
      ((Reg.generate_client_machine ur).states.getD j default).transitions Event.NormalRecv
          = [(j + 1, 1)]) ∧
    (∀ j, j + 1 = Int.toNat ⌊ur⌋ →
      ((Reg.generate_client_machine ur).states.getD j default).transitions Event.PaddingRecv
          = [(j + 1, 1 - Int.fract ur), (j, Int.fract ur)] ∧
      ((Reg.generate_client_machine ur).states.getD j default).transitions Event.NormalRecv
          = [(j + 1, 1 - Int.fract ur), (j, Int.fract ur)]) ∧
    ((Reg.generate_client_machine (2.5 : ℝ)).states.getD 1 default).transitions
        Event.PaddingRecv = [(2, 0.5), (1, 0.5)] ∧
    ((Reg.generate_client_machine (2.5 : ℝ)).states.getD 1 default).transitions
        Event.NormalRecv = [(2, 0.5), (1, 0.5)] := by
  have hfr0 : 0 < Int.fract ur := lt_of_le_of_ne (Int.fract_nonneg ur) (Ne.symm hf)
  have hfr1 : Int.fract ur < 1 := Int.fract_lt_one ur
  have h25 : Int.fract (2.5 : ℝ) = 0.5 := by rw [Int.fract]; norm_num
  have hget : (Reg.generate_client_machine (2.5 : ℝ)).states.getD 1 default =
      Reg.generate_client_count_state 1 2 (1 - Int.fract (2.5 : ℝ)) := by
    rw [client_getD_counter 2.5 1 (by rw [show ⌊(2.5 : ℝ)⌋ = 2 by norm_num]; decide)]
    rw [show ⌊(2.5 : ℝ)⌋ = 2 by norm_num]
    rfl
  refine ⟨fun j hj => ?_, fun j hj => ?_, ?_, ?_⟩
  · have hj' : j < Int.toNat ⌊ur⌋ := by omega
    have hne : ¬ (j = Int.toNat ⌊ur⌋ - 1) := by omega
    rw [client_getD_counter ur j hj']
    simp only [hne, if_false]
    constructor <;> simp [Reg.generate_client_count_state]
  · have hj' : j < Int.toNat ⌊ur⌋ := by omega
    have heq : j = Int.toNat ⌊ur⌋ - 1 := by omega
    rw [client_getD_counter ur j hj']
    simp only [heq, if_true, if_pos rfl]
    have hlt : 1 - Int.fract ur < 1 := by linarith
    constructor <;> simp [Reg.generate_client_count_state, hlt, sub_sub_cancel]
  · rw [hget]
    have hlt : (1 : ℝ) - Int.fract (2.5 : ℝ) < 1 := by rw [h25]; norm_num
    simp [Reg.generate_client_count_state, hlt, h25]
    norm_num
  · rw [hget]
    have hlt : (1 : ℝ) - Int.fract (2.5 : ℝ) < 1 := by rw [h25]; norm_num
    simp [Reg.generate_client_count_state, hlt, h25]
    norm_num

end MB

namespace MB

/-- C5 counterexample: at `upload_ratio = 2.25` the last COUNTER state
advances with probability `0.75 = 1 - fract(2.25)`, not with the
fractional part `0.25` the claim demands. -/
theorem C5_counterexample :
    ((Reg.generate_client_machine (2.25 : ℝ)).states.getD 1 default).transitions
        Event.PaddingRecv = [(2, 0.75), (1, 0.25)] ∧
    Int.fract (2.25 : ℝ) = 0.25 ∧ (0.75 : ℝ) ≠ 0.25 := by
  have hfr : Int.fract (2.25 : ℝ) = 0.25 := by rw [Int.fract]; norm_num
  have hget : (Reg.generate_client_machine (2.25 : ℝ)).states.getD 1 default =
      Reg.generate_client_count_state 1 2 (1 - Int.fract (2.25 : ℝ)) := by
    rw [client_getD_counter 2.25 1 (by rw [show ⌊(2.25 : ℝ)⌋ = 2 by norm_num]; decide)]
    rw [show ⌊(2.25 : ℝ)⌋ = 2 by norm_num]
    rfl
  refine ⟨?_, hfr, by norm_num⟩
  rw [hget, hfr]
  have hlt : (1 : ℝ) - 0.25 < 1 := by norm_num
  simp [Reg.generate_client_count_state, hlt]
  norm_num

/-- C5 witness at `upload_ratio = 2.25`. -/
theorem C5_witness :
    Int.fract (2.25 : ℝ) ≠ 0 ∧
    ((∀ j, j + 1 < Int.toNat ⌊(2.25 : ℝ)⌋ →
      ((Reg.generate_client_machine (2.25 : ℝ)).states.getD j default).transitions
          Event.PaddingRecv = [(j + 1, 1)] ∧
      ((Reg.generate_client_machine (2.25 : ℝ)).states.getD j default).transitions
          Event.NormalRecv = [(j + 1, 1)]) ∧
    (∀ j, j + 1 = Int.toNat ⌊(2.25 : ℝ)⌋ →
      ((Reg.generate_client_machine (2.25 : ℝ)).states.getD j default).transitions
          Event.PaddingRecv = [(j + 1, 1 - Int.fract (2.25 : ℝ)), (j, Int.fract (2.25 : ℝ))] ∧
      ((Reg.generate_client_machine (2.25 : ℝ)).states.getD j default).transitions
          Event.NormalRecv = [(j + 1, 1 - Int.fract (2.25 : ℝ)), (j, Int.fract (2.25 : ℝ))]) ∧
    ((Reg.generate_client_machine (2.5 : ℝ)).states.getD 1 default).transitions
        Event.PaddingRecv = [(2, 0.5), (1, 0.5)] ∧
    ((Reg.generate_client_machine (2.5 : ℝ)).states.getD 1 default).transitions
        Event.NormalRecv = [(2, 0.5), (1, 0.5)]) :=
  ⟨by rw [Int.fract]; norm_num, C5_counter_probabilities 2.25 (by rw [Int.fract]; norm_num)⟩

/-- C9 (amended): no validation of degenerate parameters is performed:
`upload_ratio = 0` flows through the client generator and yields a
machine with a single SEND state, and `num_states = 0` flows through the
windowed generator and yields a machine with two states (START plus the
final padding state); neither is reported as a configuration error. -/
theorem C9_no_validation :
    (Reg.generate_client_machine 0).states.length = 1 ∧
    (Reg.generate_client_machine 0).states.getD 0 default =
      Reg.generate_client_send_state ∧
    ∀ (cf : ℕ) (pw : ℝ) (pb : ℕ), ∃ m, Front.generate_machine cf pw pb 0 = some m ∧
      m.states.length = 2 := by
  refine ⟨?_, ?_, fun cf pw pb => ⟨_, rfl, rfl⟩⟩
  · rw [client_states_length]
    norm_num
  · have h0 : Int.toNat ⌊(0 : ℝ)⌋ = 0 := by norm_num
    rw [← h0, client_getD_send]

/-- C9 counterexample: the degenerate input `upload_ratio = 0` is not
rejected; the generator runs through and produces a one-state machine
whose only state is the SEND state. -/
theorem C9_counterexample :
    (Reg.generate_client_machine 0).states.length = 1 ∧
    ((Reg.generate_client_machine 0).states.getD 0 default).action =
      some (Action.SendPadding true true ⟨DistType.Uniform 0 0, 0, 0⟩ none) := by
  constructor
  · rw [client_states_length]
    norm_num
  · have h0 : Int.toNat ⌊(0 : ℝ)⌋ = 0 := by norm_num
    rw [← h0, client_getD_send]
    rfl

end MB

namespace MB

/-! ### Accuracy of the two interval-width searches -/

theorem Front.calcAux_accuracy (a area scale : ℝ) :
    ∀ (fuel : ℕ) (b inc w : ℝ), Front.calcAux a area scale fuel b inc = some w →
      |Front.rayleigh_cdf (a + w) scale - Front.rayleigh_cdf a scale - area| ≤ EPSILON := by
  intro fuel
  induction fuel with
  | zero =>
    intro b inc w h
    rw [Front.calcAux] at h
    split at h
    · next hcond =>
      have hw : w = b - a := by exact (Option.some.injEq _ _).mp h.symm
      have hb : a + w = b := by rw [hw]; ring
      rw [hb]
      have : Front.rayleigh_cdf b scale - Front.rayleigh_cdf a scale - area =
          -(area - (Front.rayleigh_cdf b scale - Front.rayleigh_cdf a scale)) := by ring
      rw [this, abs_neg]
      exact hcond
    · simp at h
  | succ f ih =>
    intro b inc w h
    rw [Front.calcAux] at h
    split at h
    · next hcond =>
      have hw : w = b - a := by exact (Option.some.injEq _ _).mp h.symm
      have hb : a + w = b := by rw [hw]; ring
      rw [hb]
      have : Front.rayleigh_cdf b scale - Front.rayleigh_cdf a scale - area =
          -(area - (Front.rayleigh_cdf b scale - Front.rayleigh_cdf a scale)) := by ring
      rw [this, abs_neg]
      exact hcond
    · exact ih _ _ _ h

theorem Reg.surge_calcAux_accuracy (a count rate decay : ℝ) :
    ∀ (fuel : ℕ) (mid step : ℝ) (dec : Bool) (w : ℝ),
      Reg.calcAux a count rate decay fuel mid step dec = some w →
      |Reg.calculate_rate (a + w / 2) rate decay * w - count| ≤ SURGE_TOL := by
  intro fuel
  induction fuel with
  | zero =>
    intro mid step dec w h
    rw [Reg.calcAux] at h
    split at h
    · next hcond =>
      have hw : w = (mid - a) * 2 := by exact (Option.some.injEq _ _).mp h.symm
      have hmid : a + w / 2 = mid := by rw [hw]; ring
      rw [hmid, hw]
      have : Reg.calculate_rate mid rate decay * ((mid - a) * 2) - count =
          -(count - Reg.calculate_rate mid rate decay * (mid - a) * 2) := by ring
      rw [this, abs_neg]
      exact hcond
    · simp at h
  | succ f ih =>
    intro mid step dec w h
    rw [Reg.calcAux] at h
    split at h
    · next hcond =>
      have hw : w = (mid - a) * 2 := by exact (Option.some.injEq _ _).mp h.symm
      have hmid : a + w / 2 = mid := by rw [hw]; ring
      rw [hmid, hw]
      have : Reg.calculate_rate mid rate decay * ((mid - a) * 2) - count =
          -(count - Reg.calculate_rate mid rate decay * (mid - a) * 2) := by ring
      rw [this, abs_neg]
      exact hcond
    · split at h
      · exact ih _ _ _ _ h
      · exact ih _ _ _ _ h

/-- C2: whenever the windowed scheme's interval-width search terminates,
the returned width `w` satisfies
`|(CDF(a+w) - CDF(a)) - area| ≤ EPSILON` for the Rayleigh CDF. -/
theorem C2_window_width_accuracy (fuel : ℕ) (a max_t area scale w : ℝ)
    (h : Front.calc_interval_width fuel a max_t area scale = some w) :
    |Front.rayleigh_cdf (a + w) scale - Front.rayleigh_cdf a scale - area| ≤ EPSILON :=
  Front.calcAux_accuracy a area scale fuel max_t ((max_t - a) / 2) w h

/-- C2 witness: a run of the search that terminates immediately. -/
theorem C2_witness :
    Front.calc_interval_width 0 0 0 0 1 = some 0 ∧
    |Front.rayleigh_cdf (0 + 0) 1 - Front.rayleigh_cdf 0 1 - 0| ≤ EPSILON := by
  have heq : Front.calc_interval_width 0 0 0 0 1 = some 0 := by
    rw [Front.calc_interval_width, Front.calcAux]
    norm_num [EPSILON]
  exact ⟨heq, C2_window_width_accuracy 0 0 0 0 1 0 heq⟩

/-- C3: whenever the surge scheme's interval-width search terminates,
the returned width `w` satisfies
`|rate(a + w/2) · w - count| ≤ 0.00001`, a tolerance strictly looser
than the windowed partitioner's machine epsilon. -/
theorem C3_surge_width_accuracy (fuel : ℕ) (a count rate decay w : ℝ)
    (h : Reg.calc_interval_width fuel a count rate decay = some w) :
    |Reg.calculate_rate (a + w / 2) rate decay * w - count| ≤ SURGE_TOL ∧
    EPSILON < SURGE_TOL :=
  ⟨Reg.surge_calcAux_accuracy a count rate decay fuel a 0.5 false w h,
   by rw [EPSILON, SURGE_TOL]; norm_num⟩

/-- C3 witness: a run of the surge search that terminates immediately. -/
theorem C3_witness :
    Reg.calc_interval_width 0 0 0 1 1 = some 0 ∧
    (|Reg.calculate_rate (0 + 0 / 2) 1 1 * 0 - 0| ≤ SURGE_TOL ∧ EPSILON < SURGE_TOL) := by
  have heq : Reg.calc_interval_width 0 0 0 1 1 = some 0 := by
    rw [Reg.calc_interval_width, Reg.calcAux]
    norm_num [SURGE_TOL]
  exact ⟨heq, C3_surge_width_accuracy 0 0 0 1 1 0 heq⟩

end MB

namespace MB

/-! ### The windowed machine never blocks -/

theorem frontM1_eq : Front.generate_machine 0 1 1 1 = some frontM1 := rfl

theorem Front.padLoop_sendPadding (cf : ℕ) (pw area maxt pb : ℝ) :
    ∀ (r i : ℕ) (t1 total : ℝ) (l : List State) (t2 tot2 : ℝ),
      Front.padLoop cf pw area maxt pb r i t1 total = some (l, t2, tot2) →
      ∀ s ∈ l, ∃ bp rp t lim, s.action = some (Action.SendPadding bp rp t lim) := by
  intro r
  induction r with
  | zero =>
    intro i t1 total l t2 tot2 h s hs
    rw [Front.padLoop] at h
    have hl : l = [] := by
      have := (Option.some.injEq _ _).mp h.symm
      exact congrArg Prod.fst this
    rw [hl] at hs
    simp at hs
  | succ r ih =>
    intro i t1 total l t2 tot2 h s hs
    rw [Front.padLoop] at h
    split at h
    · simp at h
    · next width hw =>
      split at h
      · simp at h
      · next rest tEnd totalEnd hrest =>
        have := (Option.some.injEq _ _).mp h.symm
        have hl : l = Front.generate_padding_state i (i + 1) (area * pb)
            (width / (area * pb))
            (pw ^ 2 / ((area * pb) * (t1 + width / 2) * Real.sqrt Real.pi)) :: rest :=
          congrArg Prod.fst this
        rw [hl, List.mem_cons] at hs
        rcases hs with hs | hs
        · rw [hs]
          exact ⟨false, false, _, _, rfl⟩
        · exact ih (i + 1) (t1 + width) (total + area) rest tEnd totalEnd hrest s hs

/-- C10: the windowed (FRONT) machine never blocks: the descriptor sets
`allowed_blocked_microsec = 0` and `max_blocking_frac = 0`, and every
state's action is either absent (the START state) or `SendPadding`. -/
theorem C10_front_never_blocks (cf : ℕ) (pw : ℝ) (pb n : ℕ) (m : Machine)
    (h : Front.generate_machine cf pw pb n = some m) :
    m.allowed_blocked_microsec = 0 ∧ m.max_blocking_frac = 0 ∧
    ∀ s ∈ m.states, s.action = none ∨
      ∃ bp rp t lim, s.action = some (Action.SendPadding bp rp t lim) := by
  rw [Front.generate_machine] at h
  split at h
  · simp at h
  · next pads t1 total hpads =>
    have hm := (Option.some.injEq _ _).mp h.symm
    subst hm
    refine ⟨rfl, rfl, fun s hs => ?_⟩
    simp only [List.mem_cons, List.mem_append, List.mem_singleton] at hs
    rcases hs with (hs | hs) | (hs | hs)
    · rw [hs]
      exact Or.inl rfl
    · exact Or.inr (Front.padLoop_sendPadding cf pw _ _ _ _ _ _ _ _ _ _ hpads s hs)
    · rw [hs]
      exact Or.inr ⟨false, false, _, _, rfl⟩
    · simp at hs

/-- C10 witness at the concrete windowed machine `frontM1`. -/
theorem C10_witness :
    frontM1.allowed_blocked_microsec = 0 ∧ frontM1.max_blocking_frac = 0 ∧
    ∀ s ∈ frontM1.states, s.action = none ∨
      ∃ bp rp t lim, s.action = some (Action.SendPadding bp rp t lim) :=
  C10_front_never_blocks 0 1 1 1 frontM1 frontM1_eq

end MB

namespace MB

/-! ### A fully evaluated relay machine (R = 3^(1/4), D = 3^(-1/2),
packets_per_state = 1, threshold = 2) -/

theorem rcdc (y : ℝ) : Reg.calculate_rate y RC DC = (3:ℝ) ^ ((1:ℝ)/4 - y/2) := by
  rw [Reg.calculate_rate, RC, DC, ← Real.rpow_mul (by norm_num : (0:ℝ) ≤ 3),
    ← Real.rpow_add (by norm_num : (0:ℝ) < 3)]
  congr 1
  ring

theorem s2_pos : (0:ℝ) < (3:ℝ) ^ (-((1:ℝ)/2)) := Real.rpow_pos_of_pos (by norm_num) _

theorem s2_lt : (3:ℝ) ^ (-((1:ℝ)/2)) < 0.6 := by
  rw [Real.rpow_neg (by norm_num), ← Real.sqrt_eq_rpow]
  have h : (1.7 : ℝ) < Real.sqrt 3 := by
    rw [show (1.7:ℝ) = Real.sqrt (1.7^2) from (Real.sqrt_sq (by norm_num)).symm]
    exact Real.sqrt_lt_sqrt (by norm_num) (by norm_num)
  have h2 : (0:ℝ) < Real.sqrt 3 := by positivity
  rw [inv_lt_iff_one_lt_mul₀ h2]
  nlinarith

theorem Reg.surge_calcAux_exit (a count rate decay : ℝ) (fuel : ℕ) (mid step : ℝ) (dec : Bool)
    (h : |count - Reg.calculate_rate mid rate decay * (mid - a) * 2| ≤ SURGE_TOL) :
    Reg.calcAux a count rate decay fuel mid step dec = some ((mid - a) * 2) := by
  cases fuel with
  | zero => rw [Reg.calcAux, if_pos h]
  | succ f => rw [Reg.calcAux, if_pos h]

theorem Reg.calcAux_up_false (a count rate decay : ℝ) (f : ℕ) (mid step : ℝ)
    (h1 : ¬ |count - Reg.calculate_rate mid rate decay * (mid - a) * 2| ≤ SURGE_TOL)
    (h2 : ¬ (count - Reg.calculate_rate mid rate decay * (mid - a) * 2 < 0)) :
    Reg.calcAux a count rate decay (f + 1) mid step false =
      Reg.calcAux a count rate decay f (mid + step) (step * 2) false := by
  rw [Reg.calcAux, if_neg h1, if_neg h2]
  norm_num

theorem hr05 : Reg.calculate_rate (0 + 0.5) RC DC = 1 := by
  rw [rcdc, show (1:ℝ)/4 - (0 + 0.5)/2 = 0 by norm_num, Real.rpow_zero]

theorem hr15 : Reg.calculate_rate (1 + 0.5) RC DC = (3:ℝ) ^ (-((1:ℝ)/2)) := by
  rw [rcdc]
  congr 1
  norm_num

theorem hr25 : Reg.calculate_rate (1 + 0.5 + 0.5 * 2) RC DC = (3:ℝ)⁻¹ := by
  rw [rcdc, show (1:ℝ)/4 - (1 + 0.5 + 0.5 * 2)/2 = -1 by norm_num, Real.rpow_neg_one]

theorem reg_search1 : Reg.calc_interval_width 2 0 1 RC DC = some 1 := by
  have h1 : ¬ |(1:ℝ) - Reg.calculate_rate 0 RC DC * ((0:ℝ) - 0) * 2| ≤ SURGE_TOL := by
    rw [show Reg.calculate_rate 0 RC DC * ((0:ℝ) - 0) * 2 = 0 by ring, SURGE_TOL]
    norm_num
  have h2 : ¬ ((1:ℝ) - Reg.calculate_rate 0 RC DC * ((0:ℝ) - 0) * 2 < 0) := by
    rw [show Reg.calculate_rate 0 RC DC * ((0:ℝ) - 0) * 2 = 0 by ring]
    norm_num
  have hexit : |(1:ℝ) - Reg.calculate_rate (0 + 0.5) RC DC * ((0 + 0.5 : ℝ) - 0) * 2|
      ≤ SURGE_TOL := by
    rw [hr05, show (1:ℝ) * ((0 + 0.5 : ℝ) - 0) * 2 = 1 by norm_num, SURGE_TOL]
    norm_num
  rw [Reg.calc_interval_width, show (2:ℕ) = 1 + 1 from rfl,
    Reg.calcAux_up_false 0 1 RC DC 1 0 0.5 h1 h2,
    Reg.surge_calcAux_exit 0 1 RC DC 1 (0 + 0.5) (0.5 * 2) false hexit]
  norm_num

theorem reg_search2 : Reg.calc_interval_width 2 1 1 RC DC = some 3 := by
  have h1 : ¬ |(1:ℝ) - Reg.calculate_rate 1 RC DC * ((1:ℝ) - 1) * 2| ≤ SURGE_TOL := by
    rw [show Reg.calculate_rate 1 RC DC * ((1:ℝ) - 1) * 2 = 0 by ring, SURGE_TOL]
    norm_num
  have h2 : ¬ ((1:ℝ) - Reg.calculate_rate 1 RC DC * ((1:ℝ) - 1) * 2 < 0) := by
    rw [show Reg.calculate_rate 1 RC DC * ((1:ℝ) - 1) * 2 = 0 by ring]
    norm_num
  have hp : Reg.calculate_rate (1 + 0.5) RC DC * ((1 + 0.5 : ℝ) - 1) * 2 =
      (3:ℝ) ^ (-((1:ℝ)/2)) := by
    rw [hr15]
    ring
  have h3 : ¬ |(1:ℝ) - Reg.calculate_rate (1 + 0.5) RC DC * ((1 + 0.5 : ℝ) - 1) * 2|
      ≤ SURGE_TOL := by
    rw [hp, SURGE_TOL, abs_of_pos (by linarith [s2_lt]), not_le]
    linarith [s2_lt]
  have h4 : ¬ ((1:ℝ) - Reg.calculate_rate (1 + 0.5) RC DC * ((1 + 0.5 : ℝ) - 1) * 2 < 0) := by
    rw [hp, not_lt]
    linarith [s2_lt]
  have hexit : |(1:ℝ) - Reg.calculate_rate (1 + 0.5 + 0.5 * 2) RC DC *
      ((1 + 0.5 + 0.5 * 2 : ℝ) - 1) * 2| ≤ SURGE_TOL := by
    rw [hr25, show (3:ℝ)⁻¹ * ((1 + 0.5 + 0.5 * 2 : ℝ) - 1) * 2 = 1 by norm_num, SURGE_TOL]
    norm_num
  rw [Reg.calc_interval_width, show (2:ℕ) = 1 + 1 from rfl,
    Reg.calcAux_up_false 1 1 RC DC 1 1 0.5 h1 h2]
  show Reg.calcAux 1 1 RC DC (0 + 1) (1 + 0.5) (0.5 * 2) false = some 3
  rw [Reg.calcAux_up_false 1 1 RC DC 0 (1 + 0.5) (0.5 * 2) h3 h4,
    Reg.surge_calcAux_exit 1 1 RC DC 0 (1 + 0.5 + 0.5 * 2) (0.5 * 2 * 2) false hexit]
  norm_num

end MB

namespace MB

theorem hrA : Reg.calculate_rate (0 + 1 / 2) RC DC = 1 := by
  rw [rcdc, show (1:ℝ)/4 - (0 + 1 / 2)/2 = 0 by norm_num, Real.rpow_zero]

theorem hrB : Reg.calculate_rate (1 + 3 / 2) RC DC = (3:ℝ)⁻¹ := by
  rw [rcdc, show (1:ℝ)/4 - (1 + 3 / 2)/2 = -1 by norm_num, Real.rpow_neg_one]

theorem Reg.countSendStates_step_lt (cf : ℕ) (pps rate decay : ℝ) (f : ℕ) (t1 w : ℝ)
    (hw : Reg.calc_interval_width cf t1 pps rate decay = some w)
    (hlt : Reg.calculate_rate (t1 + w / 2) rate decay < 1) :
    Reg.countSendStates cf pps rate decay (f + 1) t1 = some 1 := by
  rw [Reg.countSendStates, hw]
  exact if_pos hlt

theorem Reg.countSendStates_step (cf : ℕ) (pps rate decay : ℝ) (f : ℕ) (t1 w : ℝ) (n : ℕ)
    (hw : Reg.calc_interval_width cf t1 pps rate decay = some w)
    (hn : Reg.countSendStates cf pps rate decay f (t1 + w) = some n) :
    Reg.countSendStates cf pps rate decay (f + 1) t1 =
      if Reg.calculate_rate (t1 + w / 2) rate decay < 1 then some 1 else some (n + 1) := by
  rw [Reg.countSendStates, hw]
  show (if Reg.calculate_rate (t1 + w / 2) rate decay < 1 then some 1
    else
      match Reg.countSendStates cf pps rate decay f (t1 + w) with
      | none => none
      | some n => some (n + 1)) = _
  rw [hn]

theorem Reg.sendLoop_step (cf : ℕ) (pps rate decay threshold : ℝ) (r i : ℕ) (t1 w : ℝ)
    (rest : List State)
    (hw : Reg.calc_interval_width cf t1 pps rate decay = some w)
    (hrest : Reg.sendLoop cf pps rate decay threshold r (i + 1) (t1 + w) = some rest) :
    Reg.sendLoop cf pps rate decay threshold (r + 1) i t1 =
      if Reg.calculate_rate (t1 + w / 2) rate decay < 1 then
        some (Reg.generate_relay_send_state (i + 11) STATE_END pps (1000000 / 1)
          threshold 1 :: rest)
      else
        some (Reg.generate_relay_send_state (i + 11) (i + 12) pps
          (1000000 / Reg.calculate_rate (t1 + w / 2) rate decay) threshold
          (Reg.calculate_rate (t1 + w / 2) rate decay) :: rest) := by
  rw [Reg.sendLoop, hw]
  show (match Reg.sendLoop cf pps rate decay threshold r (i + 1) (t1 + w) with
    | none => none
    | some rest =>
      if Reg.calculate_rate (t1 + w / 2) rate decay < 1 then
        some (Reg.generate_relay_send_state (i + 11) STATE_END pps (1000000 / 1)
          threshold 1 :: rest)
      else
        some (Reg.generate_relay_send_state (i + 11) (i + 12) pps
          (1000000 / Reg.calculate_rate (t1 + w / 2) rate decay) threshold
          (Reg.calculate_rate (t1 + w / 2) rate decay) :: rest)) = _
  rw [hrest]

theorem Reg.relay_machine_step (cf nf : ℕ) (pps R D T : ℝ) (n : ℕ) (sends : List State)
    (hn : Reg.countSendStates cf pps R D nf 0 = some n)
    (hs : Reg.sendLoop cf pps R D T n 0 0 = some sends) :
    Reg.generate_relay_machine cf nf pps R D T =
      some { allowed_padding_packets := U64_MAX
             max_padding_frac := 0
             allowed_blocked_microsec := U64_MAX
             max_blocking_frac := 0
             states := Reg.generate_relay_start_state :: Reg.generate_relay_block_state ::
               Reg.generate_relay_boot_state 2 3 100000 ::
               Reg.generate_relay_boot_state 3 4 100000 ::
               Reg.generate_relay_boot_state 4 5 100000 ::
               Reg.generate_relay_boot_state 5 6 100000 ::
               Reg.generate_relay_boot_state 6 7 100000 ::
               Reg.generate_relay_boot_state 7 8 100000 ::
               Reg.generate_relay_boot_state 8 9 100000 ::
               Reg.generate_relay_boot_state 9 10 100000 ::
               Reg.generate_relay_boot_state 10 11 100000 :: sends } := by
  rw [Reg.generate_relay_machine, hn]
  show (match Reg.sendLoop cf pps R D T n 0 0 with
    | none => (none : Option Machine)
    | some sends =>
      some (Machine.mk U64_MAX 0 U64_MAX 0
        (Reg.generate_relay_start_state :: Reg.generate_relay_block_state ::
          Reg.generate_relay_boot_state 2 3 100000 ::
          Reg.generate_relay_boot_state 3 4 100000 ::
          Reg.generate_relay_boot_state 4 5 100000 ::
          Reg.generate_relay_boot_state 5 6 100000 ::
          Reg.generate_relay_boot_state 6 7 100000 ::
          Reg.generate_relay_boot_state 7 8 100000 ::
          Reg.generate_relay_boot_state 8 9 100000 ::
          Reg.generate_relay_boot_state 9 10 100000 ::
          Reg.generate_relay_boot_state 10 11 100000 :: sends))) = _
  rw [hs]

theorem reg_count : Reg.countSendStates 2 1 RC DC 2 0 = some 2 := by
  have hinner : Reg.countSendStates 2 1 RC DC 1 (0 + 1) = some 1 := by
    rw [show (0:ℝ) + 1 = 1 by norm_num]
    show Reg.countSendStates 2 1 RC DC (0 + 1) 1 = some 1
    rw [Reg.countSendStates_step_lt 2 1 RC DC 0 1 3 reg_search2 (by rw [hrB]; norm_num)]
  show Reg.countSendStates 2 1 RC DC (1 + 1) 0 = some 2
  rw [Reg.countSendStates_step 2 1 RC DC 1 0 1 1 reg_search1 hinner, hrA,
    if_neg (by norm_num : ¬ ((1:ℝ) < 1))]

theorem reg_sends : Reg.sendLoop 2 1 RC DC 2 2 0 0 =
    some [Reg.generate_relay_send_state 11 12 1 (1000000 / 1) 2 1,
      Reg.generate_relay_send_state 12 STATE_END 1 (1000000 / 1) 2 1] := by
  have hzero : Reg.sendLoop 2 1 RC DC 2 0 (0 + 1 + 1) (1 + 3) = some [] := by
    rw [Reg.sendLoop]
  have hinner : Reg.sendLoop 2 1 RC DC 2 1 (0 + 1) (0 + 1) =
      some [Reg.generate_relay_send_state 12 STATE_END 1 (1000000 / 1) 2 1] := by
    rw [show (0:ℝ) + 1 = 1 by norm_num]
    show Reg.sendLoop 2 1 RC DC 2 (0 + 1) (0 + 1) 1 = _
    rw [Reg.sendLoop_step 2 1 RC DC 2 0 (0 + 1) 1 3 [] reg_search2 hzero, hrB,
      if_pos (by norm_num : (3:ℝ)⁻¹ < 1)]
  show Reg.sendLoop 2 1 RC DC 2 (1 + 1) 0 0 = _
  rw [Reg.sendLoop_step 2 1 RC DC 2 1 0 0 1 _ reg_search1 hinner, hrA,
    if_neg (by norm_num : ¬ ((1:ℝ) < 1))]

theorem reg_machine : Reg.generate_relay_machine 2 2 1 RC DC 2 = some relayM2 := by
  rw [Reg.relay_machine_step 2 2 1 RC DC 2 2 _ reg_count reg_sends, relayM2]

end MB

namespace MB

/-! ### Structure of the relay-side SEND states -/

theorem Reg.send_state_normalSent (curr nxt : ℕ) (pc tmo th r : ℝ) (h : 11 < curr) :
    (Reg.generate_relay_send_state curr nxt pc tmo th r).transitions Event.NormalSent =
      [(11, 2 / (th * r))] := by
  simp [Reg.generate_relay_send_state, h]

theorem Reg.sendLoop_spec (cf : ℕ) (pps rate decay threshold : ℝ) :
    ∀ (r i : ℕ) (t1 : ℝ) (l : List State),
      Reg.sendLoop cf pps rate decay threshold r i t1 = some l →
      l.length = r ∧
      ∀ j, j < r → ∃ rr nxt, 1 ≤ rr ∧
        l.getD j default =
          Reg.generate_relay_send_state (i + 11 + j) nxt pps (1000000 / rr) threshold rr := by
  intro r
  induction r with
  | zero =>
    intro i t1 l h
    rw [Reg.sendLoop] at h
    have hl : l = [] := ((Option.some.injEq _ _).mp h.symm)
    subst hl
    exact ⟨rfl, fun j hj => absurd hj (Nat.not_lt_zero j)⟩
  | succ r ih =>
    intro i t1 l h
    rw [Reg.sendLoop] at h
    split at h
    · simp at h
    · next width hw =>
      split at h
      · simp at h
      · next rest hrest =>
        obtain ⟨hlen, hspec⟩ := ih (i + 1) (t1 + width) rest hrest
        split at h
        · next hrate =>
          have hl : l = Reg.generate_relay_send_state (i + 11) STATE_END pps (1000000 / 1)
              threshold 1 :: rest := ((Option.some.injEq _ _).mp h.symm)
          subst hl
          refine ⟨by simp [hlen], fun j hj => ?_⟩
          cases j with
          | zero => exact ⟨1, STATE_END, le_refl 1, rfl⟩
          | succ j =>
            obtain ⟨rr, nxt, hrr, hgd⟩ := hspec j (by omega)
            refine ⟨rr, nxt, hrr, ?_⟩
            rw [List.getD_cons_succ, hgd]
            congr 1
            omega
        · next hrate =>
          have hl : l = Reg.generate_relay_send_state (i + 11) (i + 12) pps
              (1000000 / Reg.calculate_rate (t1 + width / 2) rate decay) threshold
              (Reg.calculate_rate (t1 + width / 2) rate decay) :: rest :=
            ((Option.some.injEq _ _).mp h.symm)
          subst hl
          refine ⟨by simp [hlen], fun j hj => ?_⟩
          cases j with
          | zero =>
            exact ⟨Reg.calculate_rate (t1 + width / 2) rate decay, i + 12,
              not_lt.mp hrate, rfl⟩
          | succ j =>
            obtain ⟨rr, nxt, hrr, hgd⟩ := hspec j (by omega)
            refine ⟨rr, nxt, hrr, ?_⟩
            rw [List.getD_cons_succ, hgd]
            congr 1
            omega

/-- C4 (amended): in the relay-side surge machine, every SEND state with
index greater than 11 reacts to a locally originated non-padding packet
(`NormalSent`) with a single transition of probability
`2 / (threshold · rate)` to state index 11 — the first SEND state, not
the last BOOTSTRAP state (the bootstrap states occupy indices 2..10) —
where `rate` is that state's pacing rate (its padding timeout is
`1000000 / rate`). -/
theorem C4_surge_back_transition (cf nf : ℕ) (pps R D T : ℝ) (m : Machine)
    (hm : Reg.generate_relay_machine cf nf pps R D T = some m) :
    ∀ i, 11 < i → i < m.states.length →
      ∃ r, 1 ≤ r ∧
        (m.states.getD i default).transitions Event.NormalSent = [(11, 2 / (T * r))] ∧
        (m.states.getD i default).action =
          some (Action.SendPadding true true
            ⟨DistType.Uniform ↑((1000000 : ℝ) / r) ↑((1000000 : ℝ) / r), 0, 0⟩
            (some ⟨DistType.Uniform ↑pps ↑pps, 0, 0⟩)) := by
  intro i hi hilen
  rw [Reg.generate_relay_machine] at hm
  split at hm
  · simp at hm
  · next n hn =>
    split at hm
    · simp at hm
    · next sends hs =>
      have hmm := ((Option.some.injEq _ _).mp hm.symm)
      subst hmm
      obtain ⟨hlen, hspec⟩ := Reg.sendLoop_spec cf pps R D T n 0 0 sends hs
      have hstates : (Reg.generate_relay_start_state :: Reg.generate_relay_block_state ::
          Reg.generate_relay_boot_state 2 3 100000 ::
          Reg.generate_relay_boot_state 3 4 100000 ::
          Reg.generate_relay_boot_state 4 5 100000 ::
          Reg.generate_relay_boot_state 5 6 100000 ::
          Reg.generate_relay_boot_state 6 7 100000 ::
          Reg.generate_relay_boot_state 7 8 100000 ::
          Reg.generate_relay_boot_state 8 9 100000 ::
          Reg.generate_relay_boot_state 9 10 100000 ::
          Reg.generate_relay_boot_state 10 11 100000 :: sends) =
          [Reg.generate_relay_start_state, Reg.generate_relay_block_state,
            Reg.generate_relay_boot_state 2 3 100000,
            Reg.generate_relay_boot_state 3 4 100000,
            Reg.generate_relay_boot_state 4 5 100000,
            Reg.generate_relay_boot_state 5 6 100000,
            Reg.generate_relay_boot_state 6 7 100000,
            Reg.generate_relay_boot_state 7 8 100000,
            Reg.generate_relay_boot_state 8 9 100000,
            Reg.generate_relay_boot_state 9 10 100000,
            Reg.generate_relay_boot_state 10 11 100000] ++ sends := rfl
      simp only [hstates] at hilen ⊢
      have h11 : ([Reg.generate_relay_start_state, Reg.generate_relay_block_state,
            Reg.generate_relay_boot_state 2 3 100000,
            Reg.generate_relay_boot_state 3 4 100000,
            Reg.generate_relay_boot_state 4 5 100000,
            Reg.generate_relay_boot_state 5 6 100000,
            Reg.generate_relay_boot_state 6 7 100000,
            Reg.generate_relay_boot_state 7 8 100000,
            Reg.generate_relay_boot_state 8 9 100000,
            Reg.generate_relay_boot_state 9 10 100000,
            Reg.generate_relay_boot_state 10 11 100000] : List State).length = 11 := rfl
      rw [List.getD_append_right _ _ _ _ (by rw [h11]; omega)]
      rw [List.length_append, h11] at hilen
      obtain ⟨rr, nxt, hrr, hgd⟩ := hspec (i - 11) (by omega)
      rw [h11, hgd]
      refine ⟨rr, hrr, ?_, rfl⟩
      rw [Reg.send_state_normalSent _ _ _ _ _ _ (by omega)]

end MB

namespace MB

/-- C4 counterexample: on the concrete relay machine `relayM2` the SEND
state at index 12 reacts to `NormalSent` with a transition to index 11,
which is the first SEND state (its action is `SendPadding`), not the
last BOOTSTRAP state (the bootstrap states occupy indices 2..10; index
10 is the last one); no transition of that event targets index 10. -/
theorem C4_counterexample :
    Reg.generate_relay_machine 2 2 1 RC DC 2 = some relayM2 ∧
    relayM2.states.length = 13 ∧
    (relayM2.states.getD 12 default).transitions Event.NormalSent = [(11, 2 / (2 * 1))] ∧
    (relayM2.states.getD 11 default).action =
      some (Action.SendPadding true true
        ⟨DistType.Uniform ↑((1000000 : ℝ) / 1) ↑((1000000 : ℝ) / 1), 0, 0⟩
        (some ⟨DistType.Uniform ↑(1 : ℝ) ↑(1 : ℝ), 0, 0⟩)) ∧
    (relayM2.states.getD 10 default).action =
      some (Action.SendPadding true true
        ⟨DistType.Uniform ↑((100000 : ℝ)) ↑((100000 : ℝ)), 0, 0⟩ none) ∧
    ∀ p ∈ (relayM2.states.getD 12 default).transitions Event.NormalSent, p.1 ≠ 10 := by
  refine ⟨reg_machine, rfl, ?_, rfl, rfl, ?_⟩
  · rw [show relayM2.states.getD 12 default =
      Reg.generate_relay_send_state 12 STATE_END 1 (1000000 / 1) 2 1 from rfl]
    rw [Reg.send_state_normalSent _ _ _ _ _ _ (by norm_num)]
  · rw [show relayM2.states.getD 12 default =
      Reg.generate_relay_send_state 12 STATE_END 1 (1000000 / 1) 2 1 from rfl]
    rw [Reg.send_state_normalSent _ _ _ _ _ _ (by norm_num)]
    intro p hp
    simp only [List.mem_singleton] at hp
    rw [hp]
    norm_num

/-- C4 witness at the concrete relay machine `relayM2`, index 12. -/
theorem C4_witness :
    (11 < 12 ∧ 12 < relayM2.states.length) ∧
    ∃ r, 1 ≤ r ∧
      (relayM2.states.getD 12 default).transitions Event.NormalSent = [(11, 2 / (2 * r))] ∧
      (relayM2.states.getD 12 default).action =
        some (Action.SendPadding true true
          ⟨DistType.Uniform ↑((1000000 : ℝ) / r) ↑((1000000 : ℝ) / r), 0, 0⟩
          (some ⟨DistType.Uniform ↑(1 : ℝ) ↑(1 : ℝ), 0, 0⟩)) :=
  ⟨⟨by norm_num, by rw [show relayM2.states.length = 13 from rfl]; norm_num⟩,
    C4_surge_back_transition 2 2 1 RC DC 2 relayM2 reg_machine 12 (by norm_num)
      (by rw [show relayM2.states.length = 13 from rfl]; norm_num)⟩

end MB

namespace MB

/-! ### Transition targets of each state kind -/

theorem Reg.client_count_targets (curr nxt : ℕ) (pr : ℝ) (e : Event) (p : ℕ × ℝ)
    (hp : p ∈ (Reg.generate_client_count_state curr nxt pr).transitions e) :
    p.1 = curr ∨ p.1 = nxt := by
  simp only [Reg.generate_client_count_state] at hp
  split at hp <;> cases e <;> simp at hp <;>
    first
      | (rcases hp with rfl | rfl
         · exact Or.inr rfl
         · exact Or.inl rfl)
      | (rcases hp with rfl
         exact Or.inr rfl)

theorem Reg.client_send_targets (e : Event) (p : ℕ × ℝ)
    (hp : p ∈ Reg.generate_client_send_state.transitions e) : p.1 = 0 := by
  cases e <;> simp [Reg.generate_client_send_state] at hp <;>
    first
      | (rcases hp with rfl
         rfl)

theorem Front.padding_targets (curr nxt : ℕ) (pc tmo sd : ℝ) (e : Event) (p : ℕ × ℝ)
    (hp : p ∈ (Front.generate_padding_state curr nxt pc tmo sd).transitions e) :
    p.1 = curr ∨ p.1 = nxt := by
  cases e <;> simp [Front.generate_padding_state] at hp <;>
    first
      | (rcases hp with rfl
         exact Or.inl rfl)
      | (rcases hp with rfl
         exact Or.inr rfl)

theorem Front.last_padding_targets (curr : ℕ) (pc tmo sd : ℝ) (e : Event) (p : ℕ × ℝ)
    (hp : p ∈ (Front.generate_last_padding_state curr pc tmo sd).transitions e) :
    p.1 = curr ∨ p.1 = STATE_END := by
  cases e <;> simp [Front.generate_last_padding_state] at hp <;>
    first
      | (rcases hp with rfl
         exact Or.inl rfl)
      | (rcases hp with rfl
         exact Or.inr rfl)

theorem Front.start_targets (e : Event) (p : ℕ × ℝ)
    (hp : p ∈ Front.generate_start_state.transitions e) : p.1 = 1 := by
  cases e <;> simp [Front.generate_start_state] at hp <;>
    first
      | (rcases hp with rfl
         rfl)

theorem Reg.send_targets (curr nxt : ℕ) (pc tmo th r : ℝ) (e : Event) (p : ℕ × ℝ)
    (hp : p ∈ (Reg.generate_relay_send_state curr nxt pc tmo th r).transitions e) :
    p.1 = curr ∨ p.1 = nxt ∨ p.1 = 11 := by
  simp only [Reg.generate_relay_send_state] at hp
  split at hp <;> cases e <;> simp at hp <;>
    first
      | (rcases hp with rfl
         exact Or.inl rfl)
      | (rcases hp with rfl
         exact Or.inr (Or.inl rfl))
      | (rcases hp with rfl
         exact Or.inr (Or.inr rfl))

theorem Reg.boot_targets (curr nxt : ℕ) (tmo : ℝ) (e : Event) (p : ℕ × ℝ)
    (hp : p ∈ (Reg.generate_relay_boot_state curr nxt tmo).transitions e) :
    p.1 = curr ∨ p.1 = nxt := by
  cases e <;> simp [Reg.generate_relay_boot_state] at hp <;>
    first
      | (rcases hp with rfl
         exact Or.inl rfl)
      | (rcases hp with rfl
         exact Or.inr rfl)

theorem Reg.block_targets (e : Event) (p : ℕ × ℝ)
    (hp : p ∈ Reg.generate_relay_block_state.transitions e) : p.1 = 2 := by
  cases e <;> simp [Reg.generate_relay_block_state] at hp <;>
    first
      | (rcases hp with rfl
         rfl)

theorem Reg.relay_start_targets (e : Event) (p : ℕ × ℝ)
    (hp : p ∈ Reg.generate_relay_start_state.transitions e) : p.1 = 1 := by
  cases e <;> simp [Reg.generate_relay_start_state] at hp <;>
    first
      | (rcases hp with rfl
         rfl)

end MB

namespace MB

theorem Front.padLoop_length (cf : ℕ) (pw area maxt pb : ℝ) :
    ∀ (r i : ℕ) (t1 total : ℝ) (l : List State) (t2 tot2 : ℝ),
      Front.padLoop cf pw area maxt pb r i t1 total = some (l, t2, tot2) →
      l.length = r := by
  intro r
  induction r with
  | zero =>
    intro i t1 total l t2 tot2 h
    rw [Front.padLoop] at h
    have hl : l = [] := congrArg Prod.fst ((Option.some.injEq _ _).mp h.symm)
    rw [hl]
    rfl
  | succ r ih =>
    intro i t1 total l t2 tot2 h
    rw [Front.padLoop] at h
    split at h
    · simp at h
    · next width hw =>
      split at h
      · simp at h
      · next rest tEnd totalEnd hrest =>
        simp only [Option.some.injEq, Prod.mk.injEq] at h
        obtain ⟨h1, h2, h3⟩ := h
        subst h1
        simp [ih (i + 1) (t1 + width) (total + area) rest tEnd totalEnd hrest]

theorem Front.padLoop_targets (cf : ℕ) (pw area maxt pb : ℝ) :
    ∀ (r i : ℕ) (t1 total : ℝ) (l : List State) (t2 tot2 : ℝ),
      Front.padLoop cf pw area maxt pb r i t1 total = some (l, t2, tot2) →
      ∀ s ∈ l, ∀ (e : Event), ∀ p ∈ s.transitions e, i ≤ p.1 ∧ p.1 ≤ i + r := by
  intro r
  induction r with
  | zero =>
    intro i t1 total l t2 tot2 h s hs
    rw [Front.padLoop] at h
    have hl : l = [] := congrArg Prod.fst ((Option.some.injEq _ _).mp h.symm)
    rw [hl] at hs
    simp at hs
  | succ r ih =>
    intro i t1 total l t2 tot2 h s hs e p hp
    rw [Front.padLoop] at h
    split at h
    · simp at h
    · next width hw =>
      split at h
      · simp at h
      · next rest tEnd totalEnd hrest =>
        simp only [Option.some.injEq, Prod.mk.injEq] at h
        obtain ⟨h1, h2, h3⟩ := h
        subst h1
        rw [List.mem_cons] at hs
        rcases hs with hs | hs
        · rw [hs] at hp
          rcases Front.padding_targets _ _ _ _ _ e p hp with h1 | h1 <;> omega
        · have := ih (i + 1) (t1 + width) (total + area) rest tEnd totalEnd hrest s hs e p hp
          omega

theorem Reg.countSendStates_pos (cf : ℕ) (pps rate decay : ℝ) :
    ∀ (f : ℕ) (t1 : ℝ) (n : ℕ), Reg.countSendStates cf pps rate decay f t1 = some n →
      1 ≤ n := by
  intro f
  induction f with
  | zero =>
    intro t1 n h
    rw [Reg.countSendStates] at h
    simp at h
  | succ f ih =>
    intro t1 n h
    rw [Reg.countSendStates] at h
    split at h
    · simp at h
    · next width hw =>
      split at h
      · have : n = 1 := ((Option.some.injEq _ _).mp h.symm)
        omega
      · split at h
        · simp at h
        · next k hk =>
          have : n = k + 1 := ((Option.some.injEq _ _).mp h.symm)
          omega

theorem Reg.sendLoop_targets (cf : ℕ) (pps rate decay threshold : ℝ) :
    ∀ (r i : ℕ) (t1 : ℝ) (l : List State),
      Reg.sendLoop cf pps rate decay threshold r i t1 = some l →
      ∀ s ∈ l, ∀ (e : Event), ∀ p ∈ s.transitions e,
        p.1 = STATE_END ∨ (11 ≤ p.1 ∧ p.1 ≤ i + 11 + r) := by
  intro r
  induction r with
  | zero =>
    intro i t1 l h s hs
    rw [Reg.sendLoop] at h
    have hl : l = [] := ((Option.some.injEq _ _).mp h.symm)
    rw [hl] at hs
    simp at hs
  | succ r ih =>
    intro i t1 l h s hs e p hp
    rw [Reg.sendLoop] at h
    split at h
    · simp at h
    · next width hw =>
      split at h
      · simp at h
      · next rest hrest =>
        have htail := ih (i + 1) (t1 + width) rest hrest
        split at h
        · have hl := ((Option.some.injEq _ _).mp h.symm)
          rw [hl, List.mem_cons] at hs
          rcases hs with hs | hs
          · rw [hs] at hp
            rcases Reg.send_targets _ _ _ _ _ _ e p hp with h1 | h1 | h1
            · right
              omega
            · exact Or.inl h1
            · right
              omega
          · rcases htail s hs e p hp with h1 | h1
            · exact Or.inl h1
            · right
              omega
        · have hl := ((Option.some.injEq _ _).mp h.symm)
          rw [hl, List.mem_cons] at hs
          rcases hs with hs | hs
          · rw [hs] at hp
            rcases Reg.send_targets _ _ _ _ _ _ e p hp with h1 | h1 | h1 <;> right <;> omega
          · rcases htail s hs e p hp with h1 | h1
            · exact Or.inl h1
            · right
              omega

end MB

namespace MB

theorem Reg.count_sends (cf : ℕ) (pps rate decay threshold : ℝ) :
    ∀ (f : ℕ) (t1 : ℝ) (n : ℕ), Reg.countSendStates cf pps rate decay f t1 = some n →
      ∀ i : ℕ, ∃ l : List State,
        Reg.sendLoop cf pps rate decay threshold n i t1 = some l ∧
        ∀ s ∈ l, ∀ (e : Event), ∀ p ∈ s.transitions e,
          p.1 = STATE_END ∨ (11 ≤ p.1 ∧ p.1 < i + 11 + n) := by
  intro f
  induction f with
  | zero =>
    intro t1 n h
    rw [Reg.countSendStates] at h
    simp at h
  | succ f ih =>
    intro t1 n h i
    rw [Reg.countSendStates] at h
    split at h
    · simp at h
    · next width hw =>
      split at h
      · next hrate =>
        have hn1 : n = 1 := ((Option.some.injEq _ _).mp h.symm)
        subst hn1
        refine ⟨[Reg.generate_relay_send_state (i + 11) STATE_END pps (1000000 / 1)
          threshold 1], ?_, ?_⟩
        · show Reg.sendLoop cf pps rate decay threshold (0 + 1) i t1 = _
          rw [Reg.sendLoop_step cf pps rate decay threshold 0 i t1 width []
            hw (by rw [Reg.sendLoop]), if_pos hrate]
        · intro s hs e p hp
          simp only [List.mem_singleton] at hs
          rw [hs] at hp
          rcases Reg.send_targets _ _ _ _ _ _ e p hp with h1 | h1 | h1
          · right
            omega
          · exact Or.inl h1
          · right
            omega
      · next hrate =>
        split at h
        · simp at h
        · next k hk =>
          have hnk : n = k + 1 := ((Option.some.injEq _ _).mp h.symm)
          subst hnk
          have hk1 := Reg.countSendStates_pos cf pps rate decay f (t1 + width) k hk
          obtain ⟨l, hsl, htargets⟩ := ih (t1 + width) k hk (i + 1)
          refine ⟨Reg.generate_relay_send_state (i + 11) (i + 12) pps
              (1000000 / Reg.calculate_rate (t1 + width / 2) rate decay) threshold
              (Reg.calculate_rate (t1 + width / 2) rate decay) :: l, ?_, ?_⟩
          · rw [Reg.sendLoop_step cf pps rate decay threshold k i t1 width l hw hsl,
              if_neg hrate]
          · intro s hs e p hp
            rw [List.mem_cons] at hs
            rcases hs with hs | hs
            · rw [hs] at hp
              rcases Reg.send_targets _ _ _ _ _ _ e p hp with h1 | h1 | h1
              · right
                omega
              · right
                omega
              · right
                omega
            · rcases htargets s hs e p hp with h1 | h1
              · exact Or.inl h1
              · right
                omega

/-- C6 (amended): in every machine produced by any of the generators,
every transition target index is either a valid index of a state of that
machine or the terminal sentinel `STATE_END`; state index 0 is never the
target of any transition in the windowed machine (for `num_states ≥ 1`)
or in the relay machine, but in the client machine the SEND state (and,
when the fractional part is nonzero, the first COUNTER state) does
target index 0: its `PaddingSent` transition is `[(0, 1)]`. -/
theorem C6_graph_wellformedness :
    (∀ ur : ℝ, targetsWellFormed (Reg.generate_client_machine ur) ∧
      ((Reg.generate_client_machine ur).states.getD (Int.toNat ⌊ur⌋) default).transitions
        Event.PaddingSent = [(0, 1)]) ∧
    (∀ (cf : ℕ) (pw : ℝ) (pb n : ℕ) (m : Machine), 1 ≤ n →
      Front.generate_machine cf pw pb n = some m →
      targetsWellFormed m ∧ neverTargetsStart m) ∧
    (∀ (cf nf : ℕ) (pps R D T : ℝ) (m : Machine),
      Reg.generate_relay_machine cf nf pps R D T = some m →
      targetsWellFormed m ∧ neverTargetsStart m) := by
  refine ⟨fun ur => ⟨?_, ?_⟩, fun cf pw pb n m hn hm => ?_, fun cf nf pps R D T m hm => ?_⟩
  · intro s hs e p hp
    rw [client_states_length]
    simp only [Reg.generate_client_machine, List.mem_append, List.mem_map,
      List.mem_range, List.mem_singleton] at hs
    rcases hs with ⟨j, hj, rfl⟩ | rfl
    · rcases Reg.client_count_targets _ _ _ e p hp with h | h <;> exact Or.inr (by omega)
    · have h0 := Reg.client_send_targets e p hp
      exact Or.inr (by omega)
  · rw [client_getD_send]
    rfl
  · rw [Front.generate_machine] at hm
    split at hm
    · simp at hm
    · next pads t1 total hpads =>
      have hmm := ((Option.some.injEq _ _).mp hm.symm)
      subst hmm
      have hplen := Front.padLoop_length cf pw _ _ _ _ _ _ _ _ _ _ hpads
      constructor <;> intro s hs e p hp <;>
        simp only [List.mem_cons, List.mem_append, List.mem_singleton] at hs
      · rcases hs with (hs | hs) | (hs | hs)
        · rw [hs] at hp
          have h1 := Front.start_targets e p hp
          refine Or.inr ?_
          simp only [List.length_cons, List.length_append, List.length_singleton]
          omega
        · have h1 := Front.padLoop_targets cf pw _ _ _ _ _ _ _ _ _ _ hpads s hs e p hp
          refine Or.inr ?_
          simp only [List.length_cons, List.length_append, List.length_singleton]
          omega
        · rw [hs] at hp
          rcases Front.last_padding_targets _ _ _ _ e p hp with h1 | h1
          · refine Or.inr ?_
            simp only [List.length_cons, List.length_append, List.length_singleton]
            omega
          · exact Or.inl h1
        · simp at hs
      · rcases hs with (hs | hs) | (hs | hs)
        · rw [hs] at hp
          have h1 := Front.start_targets e p hp
          omega
        · have h1 := Front.padLoop_targets cf pw _ _ _ _ _ _ _ _ _ _ hpads s hs e p hp
          omega
        · rw [hs] at hp
          rcases Front.last_padding_targets _ _ _ _ e p hp with h1 | h1
          · omega
          · rw [h1, STATE_END]
            norm_num
        · simp at hs
  · rw [Reg.generate_relay_machine] at hm
    split at hm
    · simp at hm
    · next n hn =>
      split at hm
      · simp at hm
      · next sends hsends =>
        have hmm := ((Option.some.injEq _ _).mp hm.symm)
        subst hmm
        have hn1 := Reg.countSendStates_pos cf pps R D nf 0 n hn
        have hslen := (Reg.sendLoop_spec cf pps R D T n 0 0 sends hsends).1
        obtain ⟨l, hsl, htargets⟩ := Reg.count_sends cf pps R D T nf 0 n hn 0
        have hls : l = sends := Option.some.inj (hsl.symm.trans hsends)
        subst hls
        constructor <;> intro s hs e p hp <;> simp only [List.mem_cons] at hs <;>
          rcases hs with rfl | rfl | rfl | rfl | rfl | rfl | rfl | rfl | rfl | rfl | rfl | hs
        · have h1 := Reg.relay_start_targets e p hp
          refine Or.inr ?_
          simp only [List.length_cons]
          omega
        · have h1 := Reg.block_targets e p hp
          refine Or.inr ?_
          simp only [List.length_cons]
          omega
        all_goals try (
          rcases Reg.boot_targets _ _ _ e p hp with h1 | h1 <;>
            (refine Or.inr ?_
             simp only [List.length_cons]
             omega))
        · rcases htargets s hs e p hp with h1 | h1
          · exact Or.inl h1
          · refine Or.inr ?_
            simp only [List.length_cons]
            omega
        · have h1 := Reg.relay_start_targets e p hp
          omega
        · have h1 := Reg.block_targets e p hp
          omega
        all_goals try (
          rcases Reg.boot_targets _ _ _ e p hp with h1 | h1 <;> omega)
        · rcases htargets s hs e p hp with h1 | h1
          · rw [h1, STATE_END]
            norm_num
          · omega

end MB

namespace MB

/-- C6 counterexample: in the client machine generated for
`upload_ratio = 2.5` (3 states), the SEND state at index 2 has a
`PaddingSent` transition targeting state index 0, so index 0 is the
target of a transition of a generated state. -/
theorem C6_counterexample :
    (Reg.generate_client_machine (2.5 : ℝ)).states.length = 3 ∧
    ((Reg.generate_client_machine (2.5 : ℝ)).states.getD 2 default).transitions
      Event.PaddingSent = [(0, 1)] := by
  have ht : Int.toNat ⌊(2.5 : ℝ)⌋ = 2 := by
    rw [show ⌊(2.5 : ℝ)⌋ = 2 by norm_num]
    rfl
  constructor
  · rw [client_states_length, ht]
  · rw [← ht, client_getD_send]
    rfl

/-- C6 witness at the windowed machine `frontM1` (one padding state),
the relay machine `relayM2` and the client machine at ratio 2.5. -/
theorem C6_witness :
    ((1:ℕ) ≤ 1 ∧ targetsWellFormed frontM1 ∧ neverTargetsStart frontM1) ∧
    (targetsWellFormed relayM2 ∧ neverTargetsStart relayM2) ∧
    (targetsWellFormed (Reg.generate_client_machine (2.5 : ℝ)) ∧
      ((Reg.generate_client_machine (2.5 : ℝ)).states.getD (Int.toNat ⌊(2.5 : ℝ)⌋)
        default).transitions Event.PaddingSent = [(0, 1)]) :=
  ⟨⟨le_refl 1, C6_graph_wellformedness.2.1 0 1 1 1 frontM1 (le_refl 1) frontM1_eq⟩,
   C6_graph_wellformedness.2.2 2 2 1 RC DC 2 relayM2 reg_machine,
   C6_graph_wellformedness.1 2.5⟩

end MB

namespace MB

/-! ### Analytic facts about the Rayleigh CDF -/

theorem Front.rayleigh_cdf_lt_one (t s : ℝ) : Front.rayleigh_cdf t s < 1 := by
  have := Real.exp_pos (-t ^ 2 / (2 * s ^ 2))
  rw [Front.rayleigh_cdf]
  linarith

theorem Front.rayleigh_cdf_mono_lt (s x y : ℝ) (hs : 0 < s) (hx : 0 ≤ x) (hxy : x < y) :
    Front.rayleigh_cdf x s < Front.rayleigh_cdf y s := by
  rw [Front.rayleigh_cdf, Front.rayleigh_cdf]
  have h2 : x ^ 2 < y ^ 2 := by nlinarith
  have hdenom : (0:ℝ) < 2 * s ^ 2 := by positivity
  have hd : -y ^ 2 / (2 * s ^ 2) < -x ^ 2 / (2 * s ^ 2) :=
    (div_lt_div_right hdenom).mpr (by linarith)
  have := Real.exp_lt_exp.mpr hd
  linarith

theorem Front.rayleigh_cdf_mono_le (s x y : ℝ) (hs : 0 < s) (hx : 0 ≤ x) (hxy : x ≤ y) :
    Front.rayleigh_cdf x s ≤ Front.rayleigh_cdf y s := by
  rcases eq_or_lt_of_le hxy with rfl | h
  · exact le_refl _
  · exact le_of_lt (Front.rayleigh_cdf_mono_lt s x y hs hx h)

theorem Front.rayleigh_cdf_hasDeriv (s t : ℝ) :
    HasDerivAt (fun u => Front.rayleigh_cdf u s)
      (t / s ^ 2 * Real.exp (-t ^ 2 / (2 * s ^ 2))) t := by
  have h1 : HasDerivAt (fun u : ℝ => -u ^ 2 / (2 * s ^ 2)) (-(2 * t) / (2 * s ^ 2)) t := by
    have := (hasDerivAt_pow 2 t).neg.div_const (2 * s ^ 2)
    simpa using this
  have h2 := h1.exp
  have h3 := (hasDerivAt_const t (1:ℝ)).sub h2
  have h4 : HasDerivAt (fun u => Front.rayleigh_cdf u s)
      (-(Real.exp (-t ^ 2 / (2 * s ^ 2)) * (-(2 * t) / (2 * s ^ 2)))) t := by
    simpa [Front.rayleigh_cdf] using h3
  convert h4 using 1
  by_cases hs0 : s = 0
  · simp [hs0]
  · field_simp
    ring

theorem rayleigh_density_le (s c : ℝ) (hs : 0 < s) (hc : 0 ≤ c) :
    c / s ^ 2 * Real.exp (-c ^ 2 / (2 * s ^ 2)) ≤ 1 / s := by
  have hEpos : 0 < Real.exp (c ^ 2 / (2 * s ^ 2)) := Real.exp_pos _
  have hexpneg : Real.exp (-c ^ 2 / (2 * s ^ 2)) = (Real.exp (c ^ 2 / (2 * s ^ 2)))⁻¹ := by
    rw [← Real.exp_neg]
    congr 1
    ring
  have hu : c / s ≤ 1 + (c / s) ^ 2 / 2 := by nlinarith [sq_nonneg (c / s - 1)]
  have huE : c / s ≤ Real.exp (c ^ 2 / (2 * s ^ 2)) := by
    have h3 : (c / s) ^ 2 / 2 = c ^ 2 / (2 * s ^ 2) := by
      rw [div_pow, div_div]
      ring_nf
    rw [h3] at hu
    have h5 := Real.add_one_le_exp (c ^ 2 / (2 * s ^ 2))
    linarith
  have hcle : c ≤ Real.exp (c ^ 2 / (2 * s ^ 2)) * s := by
    rw [div_le_iff hs] at huE
    exact huE
  rw [hexpneg, div_mul_eq_mul_div, div_le_div_iff (by positivity) hs]
  calc c * (Real.exp (c ^ 2 / (2 * s ^ 2)))⁻¹ * s
      ≤ Real.exp (c ^ 2 / (2 * s ^ 2)) * s * (Real.exp (c ^ 2 / (2 * s ^ 2)))⁻¹ * s := by
        have h4 : c * (Real.exp (c ^ 2 / (2 * s ^ 2)))⁻¹ ≤
            Real.exp (c ^ 2 / (2 * s ^ 2)) * s * (Real.exp (c ^ 2 / (2 * s ^ 2)))⁻¹ :=
          mul_le_mul_of_nonneg_right hcle (inv_nonneg.mpr hEpos.le)
        exact mul_le_mul_of_nonneg_right h4 hs.le
    _ = s * s * (Real.exp (c ^ 2 / (2 * s ^ 2)) * (Real.exp (c ^ 2 / (2 * s ^ 2)))⁻¹) := by
        ring
    _ = 1 * s ^ 2 := by
        rw [mul_inv_cancel₀ (ne_of_gt hEpos)]
        ring

theorem Front.rayleigh_cdf_lip (s y x : ℝ) (hs : 0 < s) (hy : 0 ≤ y) (hyx : y ≤ x) :
    Front.rayleigh_cdf x s - Front.rayleigh_cdf y s ≤ (x - y) / s := by
  rcases eq_or_lt_of_le hyx with rfl | hlt
  · simp
  · have hcont : ContinuousOn (fun u => Front.rayleigh_cdf u s) (Set.Icc y x) := by
      have hco : Continuous (fun u => Front.rayleigh_cdf u s) := by
        unfold Front.rayleigh_cdf
        continuity
      exact hco.continuousOn
    obtain ⟨c, hc, hcs⟩ := exists_hasDerivAt_eq_slope (fun u => Front.rayleigh_cdf u s)
      (fun u => u / s ^ 2 * Real.exp (-u ^ 2 / (2 * s ^ 2))) hlt hcont
      (fun u _ => Front.rayleigh_cdf_hasDeriv s u)
    have hc0 : 0 ≤ c := le_trans hy (le_of_lt hc.1)
    have hbound := rayleigh_density_le s c hs hc0
    rw [hcs] at hbound
    rw [div_le_div_iff (by linarith) hs] at hbound
    rw [le_div_iff hs]
    linarith

theorem Front.rayleigh_cdf_abs_lip (s x y : ℝ) (hs : 0 < s) (hx : 0 ≤ x) (hy : 0 ≤ y) :
    |Front.rayleigh_cdf x s - Front.rayleigh_cdf y s| ≤ |x - y| / s := by
  rcases le_total y x with h | h
  · rw [abs_of_nonneg (sub_nonneg.mpr (Front.rayleigh_cdf_mono_le s y x hs hy h)),
      abs_of_nonneg (sub_nonneg.mpr h)]
    exact Front.rayleigh_cdf_lip s y x hs hy h
  · rw [abs_of_nonpos (sub_nonpos.mpr (Front.rayleigh_cdf_mono_le s x y hs hx h)),
      abs_of_nonpos (sub_nonpos.mpr h), neg_sub, neg_sub]
    exact Front.rayleigh_cdf_lip s x y hs hx h

end MB

namespace MB

theorem Front.calcAux_exit (a area scale : ℝ) (fuel : ℕ) (b inc : ℝ)
    (h : |area - (Front.rayleigh_cdf b scale - Front.rayleigh_cdf a scale)| ≤ EPSILON) :
    Front.calcAux a area scale fuel b inc = some (b - a) := by
  cases fuel with
  | zero => rw [Front.calcAux, if_pos h]
  | succ f => rw [Front.calcAux, if_pos h]

theorem Front.calcAux_mono (a area scale : ℝ) :
    ∀ (f g : ℕ) (b inc w : ℝ), Front.calcAux a area scale f b inc = some w → f ≤ g →
      Front.calcAux a area scale g b inc = some w := by
  intro f
  induction f with
  | zero =>
    intro g b inc w h _
    rw [Front.calcAux] at h
    split at h
    · next hcond =>
      have hw : w = b - a := ((Option.some.injEq _ _).mp h.symm)
      rw [hw]
      exact Front.calcAux_exit a area scale g b inc hcond
    · simp at h
  | succ f ih =>
    intro g b inc w h hg
    rw [Front.calcAux] at h
    split at h
    · next hcond =>
      have hw : w = b - a := ((Option.some.injEq _ _).mp h.symm)
      rw [hw]
      exact Front.calcAux_exit a area scale g b inc hcond
    · next hcond =>
      cases g with
      | zero => omega
      | succ g =>
        rw [Front.calcAux, if_neg hcond]
        exact ih g _ _ w h (by omega)

theorem Front.calc_interval_width_mono (f g : ℕ) (a maxt area scale w : ℝ)
    (h : Front.calc_interval_width f a maxt area scale = some w) (hfg : f ≤ g) :
    Front.calc_interval_width g a maxt area scale = some w := by
  rw [Front.calc_interval_width] at h ⊢
  exact Front.calcAux_mono a area scale f g _ _ w h hfg

theorem Front.exists_target (a maxt area scale : ℝ) (hs : 0 < scale) (ha : 0 ≤ a)
    (hamax : a ≤ maxt) (harea : 0 < area)
    (hle : area ≤ Front.rayleigh_cdf maxt scale - Front.rayleigh_cdf a scale) :
    ∃ bstar, 0 ≤ bstar ∧ a ≤ bstar ∧ bstar ≤ maxt ∧
      Front.rayleigh_cdf bstar scale - Front.rayleigh_cdf a scale = area := by
  have hsub : ∀ x y : ℝ, Front.rayleigh_cdf x scale - Front.rayleigh_cdf y scale =
      Real.exp (-y ^ 2 / (2 * scale ^ 2)) - Real.exp (-x ^ 2 / (2 * scale ^ 2)) := by
    intro x y
    rw [Front.rayleigh_cdf, Front.rayleigh_cdf]
    ring
  have hqpos : 0 < Real.exp (-a ^ 2 / (2 * scale ^ 2)) - area := by
    have h1 := hle
    rw [hsub] at h1
    have h2 := Real.exp_pos (-maxt ^ 2 / (2 * scale ^ 2))
    linarith
  have hqle1 : Real.exp (-a ^ 2 / (2 * scale ^ 2)) - area ≤ 1 := by
    have h1 : Real.exp (-a ^ 2 / (2 * scale ^ 2)) ≤ 1 := by
      rw [Real.exp_le_one_iff]
      have : (0:ℝ) < 2 * scale ^ 2 := by positivity
      apply div_nonpos_of_nonpos_of_nonneg <;> nlinarith [sq_nonneg a]
    linarith
  set q := Real.exp (-a ^ 2 / (2 * scale ^ 2)) - area with hqdef
  have hlog : Real.log q ≤ 0 := Real.log_nonpos hqpos.le hqle1
  have harg : 0 ≤ -(2 * scale ^ 2 * Real.log q) := by nlinarith [sq_nonneg scale]
  set bstar := Real.sqrt (-(2 * scale ^ 2 * Real.log q)) with hbdef
  have hb0 : 0 ≤ bstar := Real.sqrt_nonneg _
  have hcdfb : Front.rayleigh_cdf bstar scale = 1 - q := by
    rw [Front.rayleigh_cdf, hbdef, Real.sq_sqrt harg]
    have hexp : -(-(2 * scale ^ 2 * Real.log q)) / (2 * scale ^ 2) = Real.log q := by
      field_simp
    rw [hexp, Real.exp_log hqpos]
  have htarget : Front.rayleigh_cdf bstar scale - Front.rayleigh_cdf a scale = area := by
    rw [hcdfb, Front.rayleigh_cdf, hqdef]
    ring
  refine ⟨bstar, hb0, ?_, ?_, htarget⟩
  · by_contra hlt
    push_neg at hlt
    have := Front.rayleigh_cdf_mono_lt scale bstar a hs hb0 hlt
    linarith
  · by_contra hlt
    push_neg at hlt
    have hmt0 : 0 ≤ maxt := le_trans ha hamax
    have := Front.rayleigh_cdf_mono_lt scale maxt bstar hs hmt0 hlt
    linarith

theorem Front.calcAux_terminates (a area scale bstar : ℝ) (hs : 0 < scale)
    (hbstar : 0 ≤ bstar)
    (htarget : Front.rayleigh_cdf bstar scale - Front.rayleigh_cdf a scale = area) :
    ∀ (fuel : ℕ) (b inc : ℝ), 0 ≤ inc → 2 * inc ≤ b → |b - bstar| ≤ 2 * inc →
      2 * inc ≤ EPSILON * 2 ^ fuel * scale →
      ∃ w, Front.calcAux a area scale fuel b inc = some w ∧ 0 ≤ a + w := by
  intro fuel
  induction fuel with
  | zero =>
    intro b inc hinc hb hbb hfuel
    have hb0 : 0 ≤ b := by linarith
    have hdiff : area - (Front.rayleigh_cdf b scale - Front.rayleigh_cdf a scale) =
        Front.rayleigh_cdf bstar scale - Front.rayleigh_cdf b scale := by
      rw [← htarget]
      ring
    have hexit : |area - (Front.rayleigh_cdf b scale - Front.rayleigh_cdf a scale)|
        ≤ EPSILON := by
      rw [hdiff]
      have h1 := Front.rayleigh_cdf_abs_lip scale bstar b hs hbstar hb0
      have h2 : |bstar - b| ≤ 2 * inc := by
        rw [abs_sub_comm]
        exact hbb
      have h3 : |bstar - b| / scale ≤ (2 * inc) / scale := (div_le_div_right hs).mpr h2
      have h4 : (2 * inc) / scale ≤ EPSILON := by
        rw [div_le_iff hs]
        rw [pow_zero] at hfuel
        linarith
      linarith
    exact ⟨b - a, Front.calcAux_exit a area scale 0 b inc hexit, by linarith⟩
  | succ f ih =>
    intro b inc hinc hb hbb hfuel
    have hb0 : 0 ≤ b := by linarith
    have hdiff : area - (Front.rayleigh_cdf b scale - Front.rayleigh_cdf a scale) =
        Front.rayleigh_cdf bstar scale - Front.rayleigh_cdf b scale := by
      rw [← htarget]
      ring
    have hfuel2 : inc ≤ EPSILON * 2 ^ f * scale := by
      rw [pow_succ] at hfuel
      have heq : EPSILON * (2 ^ f * 2) * scale = 2 * (EPSILON * 2 ^ f * scale) := by ring
      rw [heq] at hfuel
      linarith
    have hbbs := abs_le.mp hbb
    by_cases hexit : |area - (Front.rayleigh_cdf b scale - Front.rayleigh_cdf a scale)|
        ≤ EPSILON
    · exact ⟨b - a, Front.calcAux_exit a area scale (f + 1) b inc hexit, by linarith⟩
    · rw [Front.calcAux, if_neg hexit]
      by_cases hneg : area - (Front.rayleigh_cdf b scale - Front.rayleigh_cdf a scale) < 0
      · rw [if_pos hneg]
        have hgt : bstar < b := by
          by_contra hle
          push_neg at hle
          have := Front.rayleigh_cdf_mono_le scale b bstar hs hb0 hle
          rw [hdiff] at hneg
          linarith
        refine ih (b - inc) (inc / 2) (by linarith) (by linarith) ?_ (by linarith)
        rw [abs_le]
        constructor <;> linarith
      · rw [if_neg hneg]
        have hge : b ≤ bstar := by
          by_contra hlt
          push_neg at hlt
          have := Front.rayleigh_cdf_mono_lt scale bstar b hs hbstar hlt
          rw [hdiff] at hneg
          push_neg at hneg
          linarith
        refine ih (b + inc) (inc / 2) (by linarith) (by linarith) ?_ (by linarith)
        rw [abs_le]
        constructor <;> linarith

theorem Front.calc_interval_width_converges (a maxt area scale : ℝ) (hs : 0 < scale)
    (ha : 0 ≤ a) (hamax : a ≤ maxt) (harea : 0 < area)
    (hle : area ≤ Front.rayleigh_cdf maxt scale - Front.rayleigh_cdf a scale) :
    ∃ (n : ℕ) (w : ℝ), Front.calc_interval_width n a maxt area scale = some w ∧
      0 ≤ a + w := by
  obtain ⟨bstar, hb0, hab, hbm, htarget⟩ :=
    Front.exists_target a maxt area scale hs ha hamax harea hle
  have hEs : 0 < EPSILON * scale := by
    rw [EPSILON]
    positivity
  obtain ⟨n, hn⟩ := pow_unbounded_of_one_lt ((maxt - a) / (EPSILON * scale))
    (one_lt_two (α := ℝ))
  have h1 : 2 * ((maxt - a) / 2) ≤ EPSILON * 2 ^ n * scale := by
    rw [div_lt_iff hEs] at hn
    calc 2 * ((maxt - a) / 2) = maxt - a := by ring
      _ ≤ 2 ^ n * (EPSILON * scale) := le_of_lt hn
      _ = EPSILON * 2 ^ n * scale := by ring
  have hinv1 : 0 ≤ (maxt - a) / 2 := by linarith
  have hinv2 : 2 * ((maxt - a) / 2) ≤ maxt := by linarith
  have hinv3 : |maxt - bstar| ≤ 2 * ((maxt - a) / 2) := by
    rw [abs_le]
    constructor <;> linarith
  obtain ⟨w, hw, hpos⟩ := Front.calcAux_terminates a area scale bstar hs hb0 htarget n
    maxt ((maxt - a) / 2) hinv1 hinv2 hinv3 h1
  exact ⟨n, w, by rw [Front.calc_interval_width]; exact hw, hpos⟩

end MB

namespace MB

/-- C8 (amended): for inputs with `0 ≤ a < max_t`, `scale > 0` and
`0 < area ≤ CDF(max_t) - CDF(a)` — the regime in which the generator
invokes the search — the bisection loop of the windowed
`calc_interval_width` terminates after finitely many iterations.  The
original claim's bound `area ≤ 1` is not sufficient: when `area`
exceeds the Rayleigh mass available above `a` the loop runs forever. -/
theorem C8_window_search_terminates (a maxt area scale : ℝ)
    (ha : 0 ≤ a) (hamax : a < maxt) (hs : 0 < scale) (harea : 0 < area)
    (hle : area ≤ Front.rayleigh_cdf maxt scale - Front.rayleigh_cdf a scale) :
    ∃ (n : ℕ) (w : ℝ), Front.calc_interval_width n a maxt area scale = some w := by
  obtain ⟨n, w, hw, _⟩ := Front.calc_interval_width_converges a maxt area scale hs ha
    (le_of_lt hamax) harea hle
  exact ⟨n, w, hw⟩

/-- C8 counterexample: at `a = 1, max_t = 2, area = 1, scale = 1` — a
valid input under the claim's conditions — the search never terminates:
the remaining Rayleigh mass above `a` is less than the requested area,
so for no amount of fuel does the loop exit. -/
theorem C8_counterexample :
    ((0:ℝ) ≤ 1 ∧ (1:ℝ) < 2 ∧ (0:ℝ) < 1 ∧ (1:ℝ) ≤ 1 ∧ (0:ℝ) < 1) ∧
    ∀ fuel : ℕ, Front.calc_interval_width fuel 1 2 1 1 = none := by
  have hkey : ∀ b : ℝ,
      ¬ |1 - (Front.rayleigh_cdf b 1 - Front.rayleigh_cdf 1 1)| ≤ EPSILON := by
    intro b
    have h1 : Front.rayleigh_cdf b 1 < 1 := Front.rayleigh_cdf_lt_one b 1
    have h2 : EPSILON < Front.rayleigh_cdf 1 1 := by
      rw [Front.rayleigh_cdf, EPSILON]
      have he : Real.exp (-(1:ℝ) ^ 2 / (2 * 1 ^ 2)) ≤ 2 / 3 := by
        have harg : -(1:ℝ) ^ 2 / (2 * 1 ^ 2) = -(1/2) := by norm_num
        rw [harg, Real.exp_neg]
        have h3 : (3:ℝ) / 2 ≤ Real.exp (1/2) := by
          have := Real.add_one_le_exp ((1:ℝ)/2)
          linarith
        have h4 : (0:ℝ) < Real.exp (1/2) := Real.exp_pos _
        rw [inv_le_iff_one_le_mul₀ h4]
        nlinarith
      have : (1:ℝ) / 2 ^ 52 < 1 / 3 := by norm_num
      linarith
    rw [not_le]
    have h3 : Front.rayleigh_cdf 1 1 < 1 - (Front.rayleigh_cdf b 1 - Front.rayleigh_cdf 1 1) := by
      linarith
    calc EPSILON < Front.rayleigh_cdf 1 1 := h2
      _ < 1 - (Front.rayleigh_cdf b 1 - Front.rayleigh_cdf 1 1) := h3
      _ ≤ |1 - (Front.rayleigh_cdf b 1 - Front.rayleigh_cdf 1 1)| := le_abs_self _
  have haux : ∀ (fuel : ℕ) (b inc : ℝ), Front.calcAux 1 1 1 fuel b inc = none := by
    intro fuel
    induction fuel with
    | zero =>
      intro b inc
      rw [Front.calcAux, if_neg (hkey b)]
    | succ f ih =>
      intro b inc
      rw [Front.calcAux, if_neg (hkey b)]
      exact ih _ _
  refine ⟨⟨by norm_num, by norm_num, by norm_num, le_refl 1, by norm_num⟩, fun fuel => ?_⟩
  rw [Front.calc_interval_width]
  exact haux fuel 2 ((2 - 1) / 2)

/-- C8 witness at `a = 0, max_t = 2, area = 1/2, scale = 1`. -/
theorem C8_witness :
    ((0:ℝ) ≤ 0 ∧ (0:ℝ) < 2 ∧ (0:ℝ) < 1 ∧ (0:ℝ) < 1 / 2 ∧
      (1 / 2 : ℝ) ≤ Front.rayleigh_cdf 2 1 - Front.rayleigh_cdf 0 1) ∧
    ∃ (n : ℕ) (w : ℝ), Front.calc_interval_width n 0 2 (1 / 2) 1 = some w := by
  have hc0 : Front.rayleigh_cdf 0 1 = 0 := by
    rw [Front.rayleigh_cdf]
    norm_num
  have hc2 : (1 / 2 : ℝ) ≤ Front.rayleigh_cdf 2 1 - Front.rayleigh_cdf 0 1 := by
    rw [hc0, Front.rayleigh_cdf]
    have harg : -(2:ℝ) ^ 2 / (2 * 1 ^ 2) = -2 := by norm_num
    rw [harg, Real.exp_neg]
    have h3 : (3:ℝ) ≤ Real.exp 2 := by
      have := Real.add_one_le_exp (2:ℝ)
      linarith
    have h4 : (0:ℝ) < Real.exp 2 := Real.exp_pos _
    have h5 : (Real.exp 2)⁻¹ ≤ 3⁻¹ := by
      rw [inv_le_inv₀ h4 (by norm_num)]
      exact h3
    have h6 : (3:ℝ)⁻¹ ≤ 1 / 2 := by norm_num
    linarith
  exact ⟨⟨le_refl 0, by norm_num, by norm_num, by norm_num, hc2⟩,
    C8_window_search_terminates 0 2 (1 / 2) 1 (le_refl 0) (by norm_num) (by norm_num)
      (by norm_num) hc2⟩

end MB

namespace MB

theorem Front.padLoop_step (cf : ℕ) (pw area maxt pb : ℝ) (r i : ℕ) (t1 total w : ℝ)
    (rest : List State) (t2 tot2 : ℝ)
    (hw : Front.calc_interval_width cf t1 maxt area pw = some w)
    (hrest : Front.padLoop cf pw area maxt pb r (i + 1) (t1 + w) (total + area) =
      some (rest, t2, tot2)) :
    Front.padLoop cf pw area maxt pb (r + 1) i t1 total =
      some (Front.generate_padding_state i (i + 1) (area * pb) (w / (area * pb))
          (pw ^ 2 / ((area * pb) * (t1 + w / 2) * Real.sqrt Real.pi)) :: rest, t2, tot2) := by
  rw [Front.padLoop, hw]
  show (match Front.padLoop cf pw area maxt pb r (i + 1) (t1 + w) (total + area) with
    | none => (none : Option (List State × ℝ × ℝ))
    | some (rest, tEnd, totalEnd) =>
      some (Front.generate_padding_state i (i + 1) (area * pb) (w / (area * pb))
          (pw ^ 2 / ((area * pb) * (t1 + w / 2) * Real.sqrt Real.pi)) :: rest,
        tEnd, totalEnd)) = _
  rw [hrest]

theorem Front.generate_machine_eq (cf : ℕ) (pw : ℝ) (pb n : ℕ) (pads : List State)
    (t1 total : ℝ)
    (hpads : Front.padLoop cf pw (1 / (n : ℝ)) (Front.rayleigh_max_t pw) ((pb : ℝ))
      (n - 1) 1 0 0 = some (pads, t1, total)) :
    Front.generate_machine cf pw pb n =
      some { allowed_padding_packets := U64_MAX
             max_padding_frac := 0
             allowed_blocked_microsec := 0
             max_blocking_frac := 0
             states := Front.generate_start_state :: pads ++
               [Front.generate_last_padding_state n ((1 - total) * (pb : ℝ))
                  ((Front.rayleigh_max_t pw - t1) / ((1 - total) * (pb : ℝ)))
                  (pw ^ 2 / (((1 - total) * (pb : ℝ)) *
                    (t1 + (Front.rayleigh_max_t pw - t1) / 2) * Real.sqrt Real.pi))] } := by
  rw [Front.generate_machine, hpads]

theorem Front.cdf_max_t (s : ℝ) (hs : 0 < s) :
    Front.rayleigh_cdf (Front.rayleigh_max_t s) s = 0.9996645373720975 := by
  have hb0 : (0:ℝ) < 1 - 0.9996645373720975 := by norm_num
  have hb1 : (1:ℝ) - 0.9996645373720975 ≤ 1 := by norm_num
  have hlog : Real.log (1 - 0.9996645373720975) ≤ 0 := Real.log_nonpos hb0.le hb1
  have harg : 0 ≤ -2 * s ^ 2 * Real.log (1 - 0.9996645373720975) := by
    nlinarith [sq_nonneg s]
  rw [Front.rayleigh_cdf, Front.rayleigh_max_t, Real.sq_sqrt harg]
  have hexp : -(-2 * s ^ 2 * Real.log (1 - 0.9996645373720975)) / (2 * s ^ 2) =
      Real.log (1 - 0.9996645373720975) := by
    field_simp
  rw [hexp, Real.exp_log hb0]
  norm_num

end MB

namespace MB

/-- C7: for `padding_window = 1.0 s` (i.e. `10^6` microseconds),
`padding_budget = 3500`, `num_states = 4`, the windowed generator
produces (with sufficient fuel for its three interval searches, each of
which provably converges) a machine with `num_states + 1 = 5` states,
and the fourth (last) padding state maps `LimitReached` to the terminal
sentinel `STATE_END`. -/
theorem C7_windowed_example :
    ∃ (n : ℕ) (m : Machine), Front.generate_machine n 1000000 3500 4 = some m ∧
      m.states.length = 5 ∧
      (m.states.getD 4 default).transitions Event.LimitReached = [(STATE_END, 1)] := by
  have hs : (0:ℝ) < 1000000 := by norm_num
  have hmt0 : (0:ℝ) ≤ Front.rayleigh_max_t 1000000 := Real.sqrt_nonneg _
  have hcm : Front.rayleigh_cdf (Front.rayleigh_max_t 1000000) 1000000 =
      0.9996645373720975 := Front.cdf_max_t 1000000 hs
  have hc0 : Front.rayleigh_cdf 0 1000000 = 0 := by
    rw [Front.rayleigh_cdf]
    norm_num
  have hA4 : (1:ℝ) / ((4:ℕ):ℝ) = 1 / 4 := by norm_num
  have hEps : EPSILON = 1 / 2 ^ 52 := rfl
  have harea : (0:ℝ) < 1 / ((4:ℕ):ℝ) := by norm_num
  -- first interval
  have hle1 : 1 / ((4:ℕ):ℝ) ≤ Front.rayleigh_cdf (Front.rayleigh_max_t 1000000) 1000000 -
      Front.rayleigh_cdf 0 1000000 := by
    rw [hcm, hc0, hA4]
    norm_num
  obtain ⟨n₁, w₁, hw₁, hpos₁⟩ := Front.calc_interval_width_converges 0
    (Front.rayleigh_max_t 1000000) (1 / ((4:ℕ):ℝ)) 1000000 hs (le_refl 0) hmt0 harea hle1
  have hacc₁ : |Front.rayleigh_cdf (0 + w₁) 1000000 - Front.rayleigh_cdf 0 1000000 -
      1 / ((4:ℕ):ℝ)| ≤ EPSILON := by
    have h := hw₁
    rw [Front.calc_interval_width] at h
    exact Front.calcAux_accuracy _ _ _ _ _ _ _ h
  rw [hc0, hA4, hEps] at hacc₁
  have hb₁ := abs_le.mp hacc₁
  -- second interval, starting at 0 + w₁
  have ht₂m : 0 + w₁ ≤ Front.rayleigh_max_t 1000000 := by
    by_contra hlt
    push_neg at hlt
    have hmono := Front.rayleigh_cdf_mono_lt 1000000 (Front.rayleigh_max_t 1000000)
      (0 + w₁) hs hmt0 hlt
    rw [hcm] at hmono
    have hnum : (1:ℝ) / 4 + 1 / 2 ^ 52 < 0.9996645373720975 := by norm_num
    have h2 := hb₁.2
    linarith
  have hle2 : 1 / ((4:ℕ):ℝ) ≤ Front.rayleigh_cdf (Front.rayleigh_max_t 1000000) 1000000 -
      Front.rayleigh_cdf (0 + w₁) 1000000 := by
    rw [hcm, hA4]
    have hnum : (1:ℝ) / 4 + (1 / 4 + 1 / 2 ^ 52) ≤ 0.9996645373720975 := by norm_num
    have h2 := hb₁.2
    linarith
  obtain ⟨n₂, w₂, hw₂, hpos₂⟩ := Front.calc_interval_width_converges (0 + w₁)
    (Front.rayleigh_max_t 1000000) (1 / ((4:ℕ):ℝ)) 1000000 hs hpos₁ ht₂m harea hle2
  have hacc₂ : |Front.rayleigh_cdf (0 + w₁ + w₂) 1000000 -
      Front.rayleigh_cdf (0 + w₁) 1000000 - 1 / ((4:ℕ):ℝ)| ≤ EPSILON := by
    have h := hw₂
    rw [Front.calc_interval_width] at h
    exact Front.calcAux_accuracy _ _ _ _ _ _ _ h
  rw [hA4, hEps] at hacc₂
  have hb₂ := abs_le.mp hacc₂
  -- third interval, starting at 0 + w₁ + w₂
  have ht₃m : 0 + w₁ + w₂ ≤ Front.rayleigh_max_t 1000000 := by
    by_contra hlt
    push_neg at hlt
    have hmono := Front.rayleigh_cdf_mono_lt 1000000 (Front.rayleigh_max_t 1000000)
      (0 + w₁ + w₂) hs hmt0 hlt
    rw [hcm] at hmono
    have hnum : (1:ℝ) / 4 + 1 / 2 ^ 52 + (1 / 4 + 1 / 2 ^ 52) < 0.9996645373720975 := by
      norm_num
    have h2 := hb₂.2
    have h1 := hb₁.2
    linarith
  have hle3 : 1 / ((4:ℕ):ℝ) ≤ Front.rayleigh_cdf (Front.rayleigh_max_t 1000000) 1000000 -
      Front.rayleigh_cdf (0 + w₁ + w₂) 1000000 := by
    rw [hcm, hA4]
    have hnum : (1:ℝ) / 4 + (1 / 4 + 1 / 2 ^ 52 + (1 / 4 + 1 / 2 ^ 52)) ≤
        0.9996645373720975 := by norm_num
    have h2 := hb₂.2
    have h1 := hb₁.2
    linarith
  obtain ⟨n₃, w₃, hw₃, hpos₃⟩ := Front.calc_interval_width_converges (0 + w₁ + w₂)
    (Front.rayleigh_max_t 1000000) (1 / ((4:ℕ):ℝ)) 1000000 hs hpos₂ ht₃m harea hle3
  -- lift all three searches to a common fuel
  have hw₁N := Front.calc_interval_width_mono n₁ (n₁ + n₂ + n₃) _ _ _ _ _ hw₁ (by omega)
  have hw₂N := Front.calc_interval_width_mono n₂ (n₁ + n₂ + n₃) _ _ _ _ _ hw₂ (by omega)
  have hw₃N := Front.calc_interval_width_mono n₃ (n₁ + n₂ + n₃) _ _ _ _ _ hw₃ (by omega)
  -- assemble the padding loop
  have hp0 : Front.padLoop (n₁ + n₂ + n₃) 1000000 (1 / ((4:ℕ):ℝ))
      (Front.rayleigh_max_t 1000000) ((3500:ℕ):ℝ) 0 4 (0 + w₁ + w₂ + w₃)
      (0 + 1 / ((4:ℕ):ℝ) + 1 / ((4:ℕ):ℝ) + 1 / ((4:ℕ):ℝ)) =
      some ([], 0 + w₁ + w₂ + w₃,
        0 + 1 / ((4:ℕ):ℝ) + 1 / ((4:ℕ):ℝ) + 1 / ((4:ℕ):ℝ)) := by
    rw [Front.padLoop]
  have hp1 := Front.padLoop_step (n₁ + n₂ + n₃) 1000000 (1 / ((4:ℕ):ℝ))
    (Front.rayleigh_max_t 1000000) ((3500:ℕ):ℝ) 0 3 (0 + w₁ + w₂)
    (0 + 1 / ((4:ℕ):ℝ) + 1 / ((4:ℕ):ℝ)) w₃ [] _ _ hw₃N hp0
  have hp2 := Front.padLoop_step (n₁ + n₂ + n₃) 1000000 (1 / ((4:ℕ):ℝ))
    (Front.rayleigh_max_t 1000000) ((3500:ℕ):ℝ) (0 + 1) 2 (0 + w₁)
    (0 + 1 / ((4:ℕ):ℝ)) w₂ _ _ _ hw₂N hp1
  have hp3 := Front.padLoop_step (n₁ + n₂ + n₃) 1000000 (1 / ((4:ℕ):ℝ))
    (Front.rayleigh_max_t 1000000) ((3500:ℕ):ℝ) (0 + 1 + 1) 1 0 0 w₁ _ _ _ hw₁N hp2
  have hpads : Front.padLoop (n₁ + n₂ + n₃) 1000000 (1 / ((4:ℕ):ℝ))
      (Front.rayleigh_max_t 1000000) ((3500:ℕ):ℝ) (4 - 1) 1 0 0 =
      some (Front.generate_padding_state 1 (1 + 1)
          (1 / ((4:ℕ):ℝ) * ((3500:ℕ):ℝ)) (w₁ / (1 / ((4:ℕ):ℝ) * ((3500:ℕ):ℝ)))
          (1000000 ^ 2 / ((1 / ((4:ℕ):ℝ) * ((3500:ℕ):ℝ)) * (0 + w₁ / 2) *
            Real.sqrt Real.pi)) ::
        Front.generate_padding_state 2 (2 + 1)
          (1 / ((4:ℕ):ℝ) * ((3500:ℕ):ℝ)) (w₂ / (1 / ((4:ℕ):ℝ) * ((3500:ℕ):ℝ)))
          (1000000 ^ 2 / ((1 / ((4:ℕ):ℝ) * ((3500:ℕ):ℝ)) * (0 + w₁ + w₂ / 2) *
            Real.sqrt Real.pi)) ::
        Front.generate_padding_state 3 (3 + 1)
          (1 / ((4:ℕ):ℝ) * ((3500:ℕ):ℝ)) (w₃ / (1 / ((4:ℕ):ℝ) * ((3500:ℕ):ℝ)))
          (1000000 ^ 2 / ((1 / ((4:ℕ):ℝ) * ((3500:ℕ):ℝ)) * (0 + w₁ + w₂ + w₃ / 2) *
            Real.sqrt Real.pi)) :: [], 0 + w₁ + w₂ + w₃,
        0 + 1 / ((4:ℕ):ℝ) + 1 / ((4:ℕ):ℝ) + 1 / ((4:ℕ):ℝ)) := hp3
  have hmach := Front.generate_machine_eq (n₁ + n₂ + n₃) 1000000 3500 4 _ _ _ hpads
  refine ⟨n₁ + n₂ + n₃, _, hmach, ?_, ?_⟩
  · rfl
  · rfl

end MB
